import Mathlib

/-!
Verification of the masonry gallery layout engine of this repository
(src/docs/masonry-gallery.js), shallowly embedded in Lean 4.

Numeric values are modelled as rationals (JS numbers used here stay within
exactly representable ranges for the structural properties studied);
JS truthiness of a possibly-absent numeric field is modelled by `Option ℚ`
together with 0 being falsy; `Math.floor` / `Math.round` are modelled by
the integer floor on ℚ (JS `Math.round x = floor (x + 1/2)`).
-/

namespace Masonry

/-- A gallery item as the layout code sees it: the JS object fields read by
`calculateGrid` and `init` in src/docs/masonry-gallery.js. `aspect` models the
`ratio` field written during enrichment, `naturalW`/`naturalH` the merged
natural dimensions; absent JS fields are `none`. -/
structure Item where
  id : Int
  img : String
  height : ℚ
  width : Option ℚ := none
  url : Option String := none
  aspect : Option ℚ := none
  naturalW : Option ℚ := none
  naturalH : Option ℚ := none
  deriving Repr, DecidableEq, Inhabited

/-- One entry of the computed grid: `{...child, x, y, w, h, focused}`
as produced by `calculateGrid`. -/
structure GridEntry where
  item : Item
  x : ℚ
  y : ℚ
  w : ℚ
  h : ℚ
  focused : Bool
  deriving Repr, DecidableEq, Inhabited

/-- The inputs `calculateGrid` reads from the instance: container width
(`this.width`), column count (`this.columns`), viewport height
(`window.innerHeight`) and the focused item id (`this.focusedItemId`,
`none` = JS `null`). -/
structure Ctx where
  width : ℚ
  columns : Nat
  innerHeight : ℚ
  focusedItemId : Option Int
  deriving Repr, DecidableEq

/-- JS `Math.min(...l)` for a nonempty spread; 0 is junk for `[]`. -/
def minD : List ℚ → ℚ
  | [] => 0
  | [x] => x
  | x :: y :: t => min x (minD (y :: t))

/-- JS `Math.max(...l)` for a nonempty spread; 0 is junk for `[]`. -/
def maxD : List ℚ → ℚ
  | [] => 0
  | [x] => x
  | x :: y :: t => max x (maxD (y :: t))

/-- JS `colHeights.indexOf(Math.min(...colHeights))`: first index holding the
minimum. -/
def idxOfMin (l : List ℚ) : Nat := l.findIdx fun v => v == minD l

/-- JS `Math.round`: round half toward positive infinity. -/
def jsRound (q : ℚ) : ℤ := ⌊q + 1/2⌋

/-- Truthiness of a possibly-absent JS numeric field. -/
def optTruthy (q : Option ℚ) : Bool :=
  match q with
  | none => false
  | some v => v != 0

/-- The aspect ratio used for an unfocused item, line 131 of
masonry-gallery.js:
`child.ratio || (child.height && child.width ? child.height / child.width : 1)`. -/
def itemAspect (child : Item) : ℚ :=
  if optTruthy child.aspect then child.aspect.getD 0
  else if child.height != 0 && optTruthy child.width then
    child.height / child.width.getD 0
  else 1

/-- Line 107 of masonry-gallery.js: `columnWidth = this.width / this.columns`. -/
def columnWidth (ctx : Ctx) : ℚ := ctx.width / (ctx.columns : ℚ)

/-- Line 132 of masonry-gallery.js: the packed height of an unfocused item,
`Math.max(80, Math.round(columnWidth * ratio))`. -/
def packedHeight (ctx : Ctx) (child : Item) : ℚ :=
  ((max 80 (jsRound (columnWidth ctx * itemAspect child)) : ℤ) : ℚ)

/-- Line 122 of masonry-gallery.js: the height of the focused item,
`Math.max(child.height / 2, Math.floor(window.innerHeight * 0.9))`. -/
def focusedHeight (ctx : Ctx) (child : Item) : ℚ :=
  max (child.height / 2) ((⌊ctx.innerHeight * (9/10)⌋ : ℤ) : ℚ)

/-- Lines 117-136 of masonry-gallery.js: the body of the `ordered.map`
callback, acting on the running `colHeights` state. -/
def packStep (ctx : Ctx) (colHeights : List ℚ) (child : Item) :
    GridEntry × List ℚ :=
  if ctx.focusedItemId = some child.id then
    let y := minD colHeights
    (⟨child, 0, y, ctx.width, focusedHeight ctx child, true⟩,
      colHeights.map fun _ => y + focusedHeight ctx child)
  else
    let col := idxOfMin colHeights
    let y := colHeights.getD col 0
    (⟨child, columnWidth ctx * (col : ℚ), y, columnWidth ctx,
        packedHeight ctx child, false⟩,
      colHeights.set col (y + packedHeight ctx child))

/-- `ordered.map` with the mutable `colHeights` made explicit; also returns
the final column heights. -/
def packList (ctx : Ctx) : List ℚ → List Item → List GridEntry × List ℚ
  | ch, [] => ([], ch)
  | ch, child :: rest =>
    let p := packStep ctx ch child
    let q := packList ctx p.2 rest
    (p.1 :: q.1, q.2)

/-- The successive `colHeights` states of one packing pass (instrumentation of
`packList`, used to state monotonicity of the running heights). -/
def packStates (ctx : Ctx) : List ℚ → List Item → List (List ℚ)
  | ch, [] => [ch]
  | ch, child :: rest => ch :: packStates ctx (packStep ctx ch child).2 rest

/-- Lines 110-115 of masonry-gallery.js: reorder so the focused item comes
first.  Note the JS truthiness test `this.focusedItemId ? ... : -1`: a focused
id of 0 (or null) skips the reorder. -/
def orderedItems (items : List Item) (fid : Option Int) : List Item :=
  let focusedIndex : Option Nat :=
    match fid with
    | none => none
    | some f => if f = 0 then none else items.findIdx? fun i => i.id == f
  match focusedIndex with
  | none => items
  | some idx =>
    match items[idx]? with
    | none => items
    | some it => it :: items.eraseIdx idx

/-- Lines 102-137 of masonry-gallery.js: `calculateGrid`.  `prevGrid` is the
instance's current `this.grid`, returned unchanged when `!this.width`. -/
def calculateGrid (prevGrid : List GridEntry) (items : List Item)
    (columns : Nat) (width innerHeight : ℚ) (fid : Option Int) :
    List GridEntry :=
  if width = 0 then prevGrid
  else
    (packList ⟨width, columns, innerHeight, fid⟩
      (List.replicate columns 0) (orderedItems items fid)).1

/-- Lines 83-90 of masonry-gallery.js: `updateColumns`, the column planner. -/
def updateColumns (width : ℚ) : Nat :=
  if 1500 ≤ width then 5
  else if 1000 ≤ width then 4
  else if 600 ≤ width then 3
  else if 400 ≤ width then 2
  else 1

/-- Natural dimensions recorded by the preloader for one URL. -/
structure Meta where
  naturalWidth : ℚ
  naturalHeight : ℚ
  deriving Repr, DecidableEq

/-- Lines 41-47 of masonry-gallery.js: enrichment of one item after preload.
`metaMap` is `this.imageMeta` (`none` for URLs whose load failed: `onerror`
resolves without recording dimensions, lines 64-81). -/
def enrichItem (metaMap : String → Option Meta) (i : Item) : Item :=
  let mw : Option ℚ := (metaMap i.img).map fun m => m.naturalWidth
  let mh : Option ℚ := (metaMap i.img).map fun m => m.naturalHeight
  let nw : ℚ := if optTruthy mw then mw.getD 0
    else if optTruthy i.width then i.width.getD 0 else 1000
  let nh : ℚ := if optTruthy mh then mh.getD 0
    else if i.height != 0 then i.height else 1000
  { i with naturalW := some nw, naturalH := some nh, aspect := some (nh / nw) }

/-- Enrichment of the whole item list (line 41: `this.items.map`). -/
def enrichItems (metaMap : String → Option Meta) (items : List Item) :
    List Item :=
  items.map (enrichItem metaMap)

/-- The outcome of activating an item wrapper. -/
inductive Action where
  | openUrl (url target features : String)
  | toggle
  | nothing
  deriving Repr, DecidableEq

/-- Truthiness of a possibly-absent JS string field (empty string is falsy). -/
def strTruthy (s : Option String) : Bool :=
  match s with
  | none => false
  | some v => v != ""

/-- Lines 232-239 of masonry-gallery.js: the click listener body.
`focusedIsSelf` models `this.focusedCard === wrapper`. -/
def clickAction (focusedIsSelf : Bool) (url : Option String) : Action :=
  if focusedIsSelf && strTruthy url then
    Action.openUrl (url.getD "") "_blank" "noopener"
  else Action.toggle

/-- Lines 241-246 of masonry-gallery.js: the keydown listener body.  It takes
the same information the click listener could consult, but the code branches
only on the key. -/
def keydownAction (key : String) (_focusedIsSelf : Bool)
    (_url : Option String) : Action :=
  if key == "Enter" || key == " " then Action.toggle else Action.nothing

/-! ### Basic facts about `minD`, `maxD`, `getD`, `findIdx`, `idxOfMin` -/

theorem minD_le_of_mem : ∀ {l : List ℚ} {a : ℚ}, a ∈ l → minD l ≤ a
  | [], _, h => absurd h (List.not_mem_nil _)
  | [x], a, h => by
    rcases List.mem_singleton.mp h with rfl
    simp [minD]
  | x :: y :: t, a, h => by
    rcases List.mem_cons.mp h with rfl | h2
    · exact min_le_left _ _
    · exact le_trans (min_le_right _ _) (minD_le_of_mem h2)

theorem minD_mem : ∀ {l : List ℚ}, l ≠ [] → minD l ∈ l
  | [], h => absurd rfl h
  | [x], _ => by simp [minD]
  | x :: y :: t, _ => by
    rcases min_cases x (minD (y :: t)) with ⟨he, _⟩ | ⟨he, _⟩
    · simp [minD, he]
    · have := minD_mem (l := y :: t) (by simp)
      simp only [minD, he]
      exact List.mem_cons_of_mem _ this

theorem le_minD : ∀ {l : List ℚ} {c : ℚ}, l ≠ [] → (∀ a ∈ l, c ≤ a) →
    c ≤ minD l :=
  fun hne hall => hall _ (minD_mem hne)

theorem le_maxD_of_mem : ∀ {l : List ℚ} {a : ℚ}, a ∈ l → a ≤ maxD l
  | [], _, h => absurd h (List.not_mem_nil _)
  | [x], a, h => by
    rcases List.mem_singleton.mp h with rfl
    simp [maxD]
  | x :: y :: t, a, h => by
    rcases List.mem_cons.mp h with rfl | h2
    · exact le_max_left _ _
    · exact le_trans (le_maxD_of_mem h2) (le_max_right _ _)

theorem maxD_mem : ∀ {l : List ℚ}, l ≠ [] → maxD l ∈ l
  | [], h => absurd rfl h
  | [x], _ => by simp [maxD]
  | x :: y :: t, _ => by
    rcases max_cases x (maxD (y :: t)) with ⟨he, _⟩ | ⟨he, _⟩
    · simp [maxD, he]
    · have := maxD_mem (l := y :: t) (by simp)
      simp only [maxD, he]
      exact List.mem_cons_of_mem _ this

theorem maxD_le : ∀ {l : List ℚ} {c : ℚ}, l ≠ [] → (∀ a ∈ l, a ≤ c) →
    maxD l ≤ c :=
  fun hne hall => hall _ (maxD_mem hne)

theorem getD_eq_zero_of_le : ∀ {l : List ℚ} {i : Nat}, l.length ≤ i →
    l.getD i 0 = 0
  | [], _, _ => by simp
  | _ :: t, 0, h => by simp at h
  | _ :: t, i + 1, h => by
    simpa using getD_eq_zero_of_le (l := t) (Nat.le_of_succ_le_succ h)

theorem getD_mem : ∀ {l : List ℚ} {i : Nat}, i < l.length → l.getD i 0 ∈ l
  | [], _, h => by simp at h
  | x :: t, 0, _ => by simp
  | x :: t, i + 1, h => by
    have := getD_mem (l := t) (i := i) (Nat.lt_of_succ_lt_succ h)
    simpa using List.mem_cons_of_mem x this

theorem getD_set_self : ∀ {l : List ℚ} {i : Nat} {v : ℚ}, i < l.length →
    (l.set i v).getD i 0 = v
  | [], _, _, h => by simp at h
  | x :: t, 0, v, _ => rfl
  | x :: t, i + 1, v, h => by
    simpa using getD_set_self (l := t) (i := i) (v := v)
      (Nat.lt_of_succ_lt_succ h)

theorem getD_set_ne : ∀ {l : List ℚ} {i j : Nat} {v : ℚ}, i ≠ j →
    (l.set i v).getD j 0 = l.getD j 0
  | [], _, _, _, _ => by simp
  | x :: t, 0, 0, v, h => absurd rfl h
  | x :: t, 0, j + 1, v, _ => rfl
  | x :: t, i + 1, 0, v, _ => rfl
  | x :: t, i + 1, j + 1, v, h => by
    simpa using getD_set_ne (l := t) (i := i) (j := j) (v := v)
      (fun he => h (congrArg Nat.succ he))

theorem getD_replicate : ∀ {n i : Nat}, (List.replicate n (0 : ℚ)).getD i 0 = 0
  | 0, _ => by simp
  | n + 1, 0 => rfl
  | n + 1, i + 1 => by
    simp [List.replicate, getD_replicate (n := n) (i := i)]

theorem findIdx_lt_of_mem {l : List ℚ} {p : ℚ → Bool} {a : ℚ} (ha : a ∈ l)
    (hp : p a = true) : l.findIdx p < l.length := by
  induction l with
  | nil => cases ha
  | cons x t ih =>
    by_cases hx : p x = true
    · simp [List.findIdx_cons, hx]
    · rcases List.mem_cons.mp ha with rfl | h2
      · exact absurd hp hx
      · have := ih h2
        simp only [List.findIdx_cons, Bool.cond_eq_ite]
        rw [if_neg hx]
        simpa using Nat.succ_lt_succ this

theorem getD_findIdx : ∀ {l : List ℚ} {p : ℚ → Bool},
    l.findIdx p < l.length → p (l.getD (l.findIdx p) 0) = true
  | [], p, h => by simp at h
  | x :: t, p, h => by
    by_cases hx : p x = true
    · simp [List.findIdx_cons, hx]
    · simp only [List.findIdx_cons, Bool.cond_eq_ite, if_neg hx] at h ⊢
      have hlt : t.findIdx p < t.length := by
        simpa using Nat.lt_of_succ_lt_succ h
      simpa using getD_findIdx hlt

theorem findIdx_first : ∀ {l : List ℚ} {p : ℚ → Bool} {j : Nat},
    j < l.findIdx p → p (l.getD j 0) = false
  | [], p, j, h => by
    rw [List.findIdx_nil] at h
    exact absurd h (Nat.not_lt_zero j)
  | x :: t, p, j, h => by
    by_cases hx : p x = true
    · simp [List.findIdx_cons, hx] at h
    · simp only [List.findIdx_cons, Bool.cond_eq_ite, if_neg hx] at h
      cases j with
      | zero => simpa using Bool.eq_false_iff.mpr hx
      | succ j =>
        have := findIdx_first (l := t) (p := p) (j := j)
          (Nat.lt_of_succ_lt_succ h)
        simpa using this

theorem idxOfMin_lt {l : List ℚ} (h : l ≠ []) : idxOfMin l < l.length :=
  findIdx_lt_of_mem (minD_mem h) (beq_self_eq_true _)

theorem getD_idxOfMin {l : List ℚ} (h : l ≠ []) :
    l.getD (idxOfMin l) 0 = minD l := by
  have := getD_findIdx (l := l) (p := fun v => v == minD l) (idxOfMin_lt h)
  simpa [beq_iff_eq] using this

theorem minD_lt_getD_of_lt_idxOfMin {l : List ℚ} {j : Nat}
    (hj : j < idxOfMin l) (hne : l ≠ []) : minD l < l.getD j 0 := by
  have hfalse := findIdx_first (l := l) (p := fun v => v == minD l) hj
  have hne2 : l.getD j 0 ≠ minD l := by simpa [beq_iff_eq] using hfalse
  have hjl : j < l.length := lt_trans hj (idxOfMin_lt hne)
  exact lt_of_le_of_ne (minD_le_of_mem (getD_mem hjl)) (Ne.symm hne2)

/-! ### Structural facts about `packStep` and `packList` -/

theorem packStep_unfocused {ctx : Ctx} {ch : List ℚ} {c : Item}
    (hnf : ctx.focusedItemId ≠ some c.id) :
    packStep ctx ch c =
      (⟨c, columnWidth ctx * (idxOfMin ch : ℚ), ch.getD (idxOfMin ch) 0,
          columnWidth ctx, packedHeight ctx c, false⟩,
        ch.set (idxOfMin ch) (ch.getD (idxOfMin ch) 0 + packedHeight ctx c)) := by
  simp [packStep, hnf]

theorem packStep_focused {ctx : Ctx} {ch : List ℚ} {c : Item}
    (hf : ctx.focusedItemId = some c.id) :
    packStep ctx ch c =
      (⟨c, 0, minD ch, ctx.width, focusedHeight ctx c, true⟩,
        ch.map fun _ => minD ch + focusedHeight ctx c) := by
  simp [packStep, hf]

theorem packStep_len {ctx : Ctx} {ch : List ℚ} {c : Item} :
    ((packStep ctx ch c).2).length = ch.length := by
  unfold packStep
  split <;> simp

theorem packStep_item {ctx : Ctx} {ch : List ℚ} {c : Item} :
    ((packStep ctx ch c).1).item = c := by
  unfold packStep
  split <;> rfl

theorem packedHeight_ge {ctx : Ctx} {c : Item} :
    (80 : ℚ) ≤ packedHeight ctx c := by
  unfold packedHeight
  exact_mod_cast le_max_left (80 : ℤ) (jsRound (columnWidth ctx * itemAspect c))

theorem packedHeight_nonneg {ctx : Ctx} {c : Item} :
    (0 : ℚ) ≤ packedHeight ctx c :=
  le_trans (by norm_num) packedHeight_ge

theorem focusedHeight_nonneg {ctx : Ctx} {c : Item}
    (h : 0 ≤ ctx.innerHeight) : 0 ≤ focusedHeight ctx c := by
  unfold focusedHeight
  have h9 : (0 : ℚ) ≤ ctx.innerHeight * (9/10) := by positivity
  have hf : (0 : ℤ) ≤ ⌊ctx.innerHeight * (9/10)⌋ :=
    Int.le_floor.mpr (by exact_mod_cast h9)
  have hc : (0 : ℚ) ≤ ((⌊ctx.innerHeight * (9/10)⌋ : ℤ) : ℚ) := by
    exact_mod_cast hf
  exact le_trans hc (le_max_right _ _)

theorem packList_nil {ctx : Ctx} {ch : List ℚ} : packList ctx ch [] = ([], ch) :=
  rfl

theorem packList_cons {ctx : Ctx} {ch : List ℚ} {c : Item} {rest : List Item} :
    packList ctx ch (c :: rest) =
      ((packStep ctx ch c).1 :: (packList ctx (packStep ctx ch c).2 rest).1,
        (packList ctx (packStep ctx ch c).2 rest).2) :=
  rfl

theorem packList_len2 {ctx : Ctx} : ∀ (l : List Item) (ch : List ℚ),
    ((packList ctx ch l).2).length = ch.length
  | [], _ => rfl
  | c :: rest, ch => by
    rw [packList_cons]
    exact (packList_len2 rest (packStep ctx ch c).2).trans packStep_len

theorem packList_len1 {ctx : Ctx} : ∀ (l : List Item) (ch : List ℚ),
    ((packList ctx ch l).1).length = l.length
  | [], _ => rfl
  | c :: rest, ch => by
    rw [packList_cons]
    simpa using packList_len1 rest (packStep ctx ch c).2

theorem packList_items {ctx : Ctx} : ∀ (l : List Item) (ch : List ℚ),
    ((packList ctx ch l).1).map (fun e => e.item) = l
  | [], _ => rfl
  | c :: rest, ch => by
    rw [packList_cons]
    simp only [List.map_cons, packStep_item]
    rw [packList_items rest (packStep ctx ch c).2]

theorem packStep_mono_unfocused {ctx : Ctx} {ch : List ℚ} {c : Item}
    (hnf : ctx.focusedItemId ≠ some c.id) (i : Nat) :
    ch.getD i 0 ≤ ((packStep ctx ch c).2).getD i 0 := by
  rw [packStep_unfocused hnf]
  by_cases hic : i = idxOfMin ch
  · rw [hic]
    by_cases hlt : idxOfMin ch < ch.length
    · rw [getD_set_self hlt]
      have := @packedHeight_nonneg ctx c
      linarith
    · rw [List.set_eq_of_length_le (le_of_not_lt hlt)]
  · rw [getD_set_ne (Ne.symm hic)]

theorem packList_mono_unfocused {ctx : Ctx} : ∀ {l : List Item} {ch : List ℚ},
    (∀ c ∈ l, ctx.focusedItemId ≠ some c.id) → ∀ i,
    ch.getD i 0 ≤ ((packList ctx ch l).2).getD i 0
  | [], _, _, _ => le_refl _
  | c :: rest, ch, hnf, i => by
    rw [packList_cons]
    exact le_trans (packStep_mono_unfocused (hnf c (by simp)) i)
      (packList_mono_unfocused
        (fun d hd => hnf d (List.mem_cons_of_mem _ hd)) i)

theorem packList_entries_unfocused {ctx : Ctx} :
    ∀ {l : List Item} {ch : List ℚ}, ch ≠ [] →
    (∀ c ∈ l, ctx.focusedItemId ≠ some c.id) →
    ∀ e ∈ (packList ctx ch l).1,
      e.focused = false ∧ e.w = columnWidth ctx ∧ (80 : ℚ) ≤ e.h ∧
      ∃ c : Nat, c < ch.length ∧ e.x = columnWidth ctx * (c : ℚ) ∧
        ch.getD c 0 ≤ e.y ∧ e.y + e.h ≤ ((packList ctx ch l).2).getD c 0
  | [], _, _, _, _, he => absurd he (List.not_mem_nil _)
  | c :: rest, ch, hne, hnf, e, he => by
    have hnf1 : ctx.focusedItemId ≠ some c.id := hnf c (by simp)
    have hnfr : ∀ d ∈ rest, ctx.focusedItemId ≠ some d.id :=
      fun d hd => hnf d (List.mem_cons_of_mem _ hd)
    have hcol := idxOfMin_lt hne
    have hch1 : (packStep ctx ch c).2 =
        ch.set (idxOfMin ch) (ch.getD (idxOfMin ch) 0 + packedHeight ctx c) := by
      rw [packStep_unfocused hnf1]
    have hne1 : (packStep ctx ch c).2 ≠ [] := by
      have : ((packStep ctx ch c).2).length = ch.length := packStep_len
      intro hnil
      rw [hnil] at this
      exact hne (List.eq_nil_of_length_eq_zero this.symm)
    rw [packList_cons] at he
    rcases List.mem_cons.mp he with rfl | he2
    · constructor
      · rw [packStep_unfocused hnf1]
      constructor
      · rw [packStep_unfocused hnf1]
      constructor
      · rw [packStep_unfocused hnf1]
        exact packedHeight_ge
      refine ⟨idxOfMin ch, hcol, ?_, ?_, ?_⟩
      · rw [packStep_unfocused hnf1]
      · rw [packStep_unfocused hnf1]
      · rw [packList_cons]
        have hstep : ((packStep ctx ch c).2).getD (idxOfMin ch) 0 =
            ch.getD (idxOfMin ch) 0 + packedHeight ctx c := by
          rw [hch1]
          exact getD_set_self hcol
        have hmono := @packList_mono_unfocused ctx rest
          (packStep ctx ch c).2 hnfr (idxOfMin ch)
        rw [hstep] at hmono
        have hy : ((packStep ctx ch c).1).y = ch.getD (idxOfMin ch) 0 := by
          rw [packStep_unfocused hnf1]
        have hh : ((packStep ctx ch c).1).h = packedHeight ctx c := by
          rw [packStep_unfocused hnf1]
        rw [hy, hh]
        exact hmono
    · rcases packList_entries_unfocused hne1 hnfr e he2 with
        ⟨hf, hw, hh, col, hcl, hx, hylb, hyub⟩
      refine ⟨hf, hw, hh, col, ?_, hx, ?_, ?_⟩
      · rw [@packStep_len ctx ch c] at hcl
        exact hcl
      · exact le_trans (packStep_mono_unfocused hnf1 col) hylb
      · rw [packList_cons]
        exact hyub

theorem packList_pairwise_unfocused {ctx : Ctx} (hcw : 0 < columnWidth ctx) :
    ∀ {l : List Item} {ch : List ℚ}, ch ≠ [] →
    (∀ c ∈ l, ctx.focusedItemId ≠ some c.id) →
    ∀ i j, i < j → j < ((packList ctx ch l).1).length →
      (((packList ctx ch l).1).getD i default).x =
        (((packList ctx ch l).1).getD j default).x →
      (((packList ctx ch l).1).getD i default).y +
        (((packList ctx ch l).1).getD i default).h ≤
        (((packList ctx ch l).1).getD j default).y
  | [], _, _, _, i, j, hij, hj, _ => by
    rw [packList_nil] at hj
    exact absurd hj (by simp)
  | c :: rest, ch, hne, hnf, i, j, hij, hj, hx => by
    have hnf1 : ctx.focusedItemId ≠ some c.id := hnf c (by simp)
    have hnfr : ∀ d ∈ rest, ctx.focusedItemId ≠ some d.id :=
      fun d hd => hnf d (List.mem_cons_of_mem _ hd)
    have hcol := idxOfMin_lt hne
    have hne1 : (packStep ctx ch c).2 ≠ [] := by
      have hlen : ((packStep ctx ch c).2).length = ch.length := packStep_len
      intro hnil
      rw [hnil] at hlen
      exact hne (List.eq_nil_of_length_eq_zero hlen.symm)
    match i, j with
    | 0, 0 => exact absurd hij (lt_irrefl 0)
    | 0, j + 1 =>
      rw [packList_cons] at hj hx ⊢
      simp only [List.getD_cons_zero, List.getD_cons_succ, List.length_cons] at hj hx ⊢
      have hjm : j < ((packList ctx (packStep ctx ch c).2 rest).1).length :=
        Nat.lt_of_succ_lt_succ hj
      have hemem : ((packList ctx (packStep ctx ch c).2 rest).1).getD j default ∈
          (packList ctx (packStep ctx ch c).2 rest).1 := by
        rw [List.getD_eq_getElem?_getD, List.getElem?_eq_getElem hjm]
        exact List.getElem_mem _
      rcases packList_entries_unfocused hne1 hnfr _ hemem with
        ⟨_, _, _, col, hcl, hxj, hylb, _⟩
      have hxhead : ((packStep ctx ch c).1).x =
          columnWidth ctx * ((idxOfMin ch : Nat) : ℚ) := by
        rw [packStep_unfocused hnf1]
      have hcoleq : (idxOfMin ch : Nat) = col := by
        have hmul : columnWidth ctx * ((idxOfMin ch : Nat) : ℚ) =
            columnWidth ctx * (col : ℚ) := by
          rw [← hxhead, ← hxj]
          exact hx
        have hq : ((idxOfMin ch : Nat) : ℚ) = (col : ℚ) :=
          mul_left_cancel₀ (ne_of_gt hcw) hmul
        exact_mod_cast hq
      have hylb2 : ((packStep ctx ch c).2).getD col 0 ≤
          (((packList ctx (packStep ctx ch c).2 rest).1).getD j default).y := hylb
      have hstep : ((packStep ctx ch c).2).getD (idxOfMin ch) 0 =
          ch.getD (idxOfMin ch) 0 + packedHeight ctx c := by
        rw [packStep_unfocused hnf1]
        exact getD_set_self hcol
      rw [← hcoleq, hstep] at hylb2
      have hy : ((packStep ctx ch c).1).y = ch.getD (idxOfMin ch) 0 := by
        rw [packStep_unfocused hnf1]
      have hh : ((packStep ctx ch c).1).h = packedHeight ctx c := by
        rw [packStep_unfocused hnf1]
      rw [hy, hh]
      exact hylb2
    | i + 1, j + 1 =>
      rw [packList_cons] at hj hx ⊢
      simp only [List.getD_cons_succ, List.length_cons] at hj hx ⊢
      exact packList_pairwise_unfocused hcw hne1 hnfr i j
        (Nat.lt_of_succ_lt_succ hij) (Nat.lt_of_succ_lt_succ hj) hx

/-! ### Facts about `orderedItems` -/

theorem orderedItems_none {items : List Item} :
    orderedItems items none = items := rfl

theorem orderedItems_zero {items : List Item} :
    orderedItems items (some 0) = items := by
  simp [orderedItems]

theorem orderedItems_not_found {items : List Item} {f : Int} (hf : f ≠ 0)
    (h : items.findIdx? (fun i => i.id == f) = none) :
    orderedItems items (some f) = items := by
  simp [orderedItems, hf, h]

theorem orderedItems_found {items : List Item} {f : Int} {idx : Nat}
    (hf : f ≠ 0) (h : items.findIdx? (fun i => i.id == f) = some idx) :
    idx < items.length ∧
      orderedItems items (some f) =
        items.getD idx default :: items.eraseIdx idx := by
  rcases List.findIdx?_eq_some_iff_getElem.mp h with ⟨hidx, _, _⟩
  refine ⟨hidx, ?_⟩
  rw [List.getD_eq_getElem?_getD, List.getElem?_eq_getElem hidx]
  simp [orderedItems, hf, h, List.getElem?_eq_getElem hidx]

theorem cons_getD_eraseIdx_perm :
    ∀ (l : List Item) (idx : Nat), idx < l.length →
    (l.getD idx default :: l.eraseIdx idx).Perm l
  | [], _, h => by simp at h
  | x :: t, 0, _ => by simp
  | x :: t, idx + 1, h => by
    simp only [List.getD_cons_succ, List.eraseIdx_cons_succ]
    have ih := cons_getD_eraseIdx_perm t idx (Nat.lt_of_succ_lt_succ h)
    exact (List.Perm.swap x (t.getD idx default) (t.eraseIdx idx)).trans
      (ih.cons x)

theorem orderedItems_perm (items : List Item) (fid : Option Int) :
    (orderedItems items fid).Perm items := by
  match fid with
  | none => exact List.Perm.refl _
  | some f =>
    by_cases hf : f = 0
    · rw [hf, orderedItems_zero]
    · match hidx : items.findIdx? (fun i => i.id == f) with
      | none => rw [orderedItems_not_found hf hidx]
      | some idx =>
        rcases orderedItems_found hf hidx with ⟨hlt, heq⟩
        rw [heq]
        exact cons_getD_eraseIdx_perm items idx hlt

theorem orderedItems_length {items : List Item} {fid : Option Int} :
    (orderedItems items fid).length = items.length :=
  (orderedItems_perm items fid).length_eq

theorem eraseIdx_findIdx_id_ne :
    ∀ (items : List Item) (f : Int),
    items.Pairwise (fun a b => a.id ≠ b.id) →
    ∀ idx, items.findIdx? (fun i => i.id == f) = some idx →
    ∀ d ∈ items.eraseIdx idx, d.id ≠ f
  | [], _, _, idx, h, d, hd => by simp at h
  | x :: t, f, hp, idx, h, d, hd => by
    rw [List.findIdx?_cons] at h
    by_cases hx : (x.id == f) = true
    · rw [if_pos hx] at h
      have hidx0 : idx = 0 := by
        have := Option.some.inj h
        omega
      subst hidx0
      simp only [List.eraseIdx_cons_zero] at hd
      have hxf : x.id = f := by simpa [beq_iff_eq] using hx
      have := (List.pairwise_cons.mp hp).1 d hd
      rw [hxf] at this
      exact fun hdf => this hdf.symm
    · rw [if_neg hx] at h
      rw [List.findIdx?_start_succ] at h
      rcases Option.map_eq_some'.mp h with ⟨idx2, hidx2, hplus⟩
      have hidx : idx = idx2 + 1 := by omega
      subst hidx
      simp only [List.eraseIdx_cons_succ] at hd
      rcases List.mem_cons.mp hd with rfl | hd2
      · simpa [beq_iff_eq] using hx
      · exact eraseIdx_findIdx_id_ne t f (List.pairwise_cons.mp hp).2
          idx2 hidx2 d hd2

theorem findIdx?_of_mem_id {items : List Item} {it : Item}
    (hmem : it ∈ items) (hid : it.id = f) :
    items.findIdx? (fun i => i.id == f) = some
      (items.findIdx (fun i => i.id == f)) :=
  List.findIdx?_eq_some_of_exists ⟨it, hmem, by simp [hid]⟩

/-! ### Replicate, spread and chain lemmas -/

theorem replicate_ne_nil {n : Nat} {v : ℚ} (hn : n ≠ 0) :
    List.replicate n v ≠ [] := by
  intro h
  have := congrArg List.length h
  simp at this
  exact hn this

theorem minD_replicate {n : Nat} {v : ℚ} (hn : n ≠ 0) :
    minD (List.replicate n v) = v :=
  List.eq_of_mem_replicate (minD_mem (replicate_ne_nil hn))

theorem maxD_replicate {n : Nat} {v : ℚ} (hn : n ≠ 0) :
    maxD (List.replicate n v) = v :=
  List.eq_of_mem_replicate (maxD_mem (replicate_ne_nil hn))

theorem getD_replicate_val : ∀ {n i : Nat} {v : ℚ},
    (List.replicate n v).getD i 0 = if i < n then v else 0
  | 0, i, v => by simp
  | n + 1, 0, v => by simp [List.replicate]
  | n + 1, i + 1, v => by
    simp only [List.replicate, List.getD_cons_succ]
    rw [getD_replicate_val (n := n) (i := i)]
    by_cases h : i < n
    · rw [if_pos h, if_pos (Nat.succ_lt_succ h)]
    · rw [if_neg h, if_neg (fun hc => h (Nat.lt_of_succ_lt_succ hc))]

theorem set_ne_nil {l : List ℚ} {c : Nat} {v : ℚ} (hne : l ≠ []) :
    l.set c v ≠ [] := by
  intro h
  have := congrArg List.length h
  rw [List.length_set] at this
  exact hne (List.eq_nil_of_length_eq_zero this)

theorem maxD_set_le {l : List ℚ} {c : Nat} {v : ℚ} (hne : l ≠ []) :
    maxD (l.set c v) ≤ max (maxD l) v := by
  apply maxD_le (set_ne_nil hne)
  intro a ha
  rcases List.mem_or_eq_of_mem_set ha with h | rfl
  · exact le_trans (le_maxD_of_mem h) (le_max_left _ _)
  · exact le_max_right _ _

theorem minD_set_ge {l : List ℚ} {c : Nat} {v : ℚ} (hne : l ≠ []) :
    min (minD l) v ≤ minD (l.set c v) := by
  apply le_minD (set_ne_nil hne)
  intro a ha
  rcases List.mem_or_eq_of_mem_set ha with h | rfl
  · exact le_trans (min_le_left _ _) (minD_le_of_mem h)
  · exact min_le_right _ _

theorem spread_set_le {l : List ℚ} (hne : l ≠ []) {h : ℚ} (hh : 0 ≤ h) :
    maxD (l.set (idxOfMin l) (l.getD (idxOfMin l) 0 + h)) -
      minD (l.set (idxOfMin l) (l.getD (idxOfMin l) 0 + h)) ≤
      max (maxD l - minD l) h := by
  rw [getD_idxOfMin hne]
  have h1 := maxD_set_le (l := l) (c := idxOfMin l) (v := minD l + h) hne
  have h2 : minD l ≤ minD (l.set (idxOfMin l) (minD l + h)) := by
    have hm := minD_set_ge (l := l) (c := idxOfMin l) (v := minD l + h) hne
    rwa [min_eq_left (by linarith)] at hm
  have h3 : maxD (l.set (idxOfMin l) (minD l + h)) -
      minD (l.set (idxOfMin l) (minD l + h)) ≤
      max (maxD l) (minD l + h) - minD l := by
    exact sub_le_sub h1 h2
  calc maxD (l.set (idxOfMin l) (minD l + h)) -
      minD (l.set (idxOfMin l) (minD l + h)) ≤
      max (maxD l) (minD l + h) - minD l := h3
    _ = max (maxD l - minD l) (minD l + h - minD l) := (max_sub_sub_right _ _ _).symm
    _ = max (maxD l - minD l) h := by ring_nf

theorem foldr_max_nonneg : ∀ (l : List ℚ), 0 ≤ l.foldr max 0
  | [] => le_refl 0
  | x :: t => le_trans (foldr_max_nonneg t) (le_max_right x _)

theorem packList_spread {ctx : Ctx} : ∀ {l : List Item} {ch : List ℚ},
    ch ≠ [] → (∀ c ∈ l, ctx.focusedItemId ≠ some c.id) →
    maxD (packList ctx ch l).2 - minD (packList ctx ch l).2 ≤
      max (maxD ch - minD ch)
        (((packList ctx ch l).1.map (fun e => e.h)).foldr max 0)
  | [], ch, hne, _ => by
    rw [packList_nil]
    exact le_max_left _ _
  | c :: rest, ch, hne, hnf => by
    have hnf1 : ctx.focusedItemId ≠ some c.id := hnf c (by simp)
    have hnfr : ∀ d ∈ rest, ctx.focusedItemId ≠ some d.id :=
      fun d hd => hnf d (List.mem_cons_of_mem _ hd)
    have hne1 : (packStep ctx ch c).2 ≠ [] := by
      intro hnil
      have hlen : ((packStep ctx ch c).2).length = ch.length := packStep_len
      rw [hnil] at hlen
      exact hne (List.eq_nil_of_length_eq_zero hlen.symm)
    have ih := @packList_spread ctx rest (packStep ctx ch c).2
      hne1 hnfr
    have hch1 : (packStep ctx ch c).2 =
        ch.set (idxOfMin ch) (ch.getD (idxOfMin ch) 0 + packedHeight ctx c) := by
      rw [packStep_unfocused hnf1]
    have hstep : maxD (packStep ctx ch c).2 - minD (packStep ctx ch c).2 ≤
        max (maxD ch - minD ch) (packedHeight ctx c) := by
      rw [hch1]
      exact spread_set_le hne packedHeight_nonneg
    have hh : ((packStep ctx ch c).1).h = packedHeight ctx c := by
      rw [packStep_unfocused hnf1]
    rw [packList_cons]
    simp only [List.map_cons, List.foldr_cons, hh]
    calc maxD (packList ctx (packStep ctx ch c).2 rest).2 -
        minD (packList ctx (packStep ctx ch c).2 rest).2 ≤
        max (maxD (packStep ctx ch c).2 - minD (packStep ctx ch c).2)
          (((packList ctx (packStep ctx ch c).2 rest).1.map
            (fun e => e.h)).foldr max 0) := ih
      _ ≤ max (max (maxD ch - minD ch) (packedHeight ctx c))
          (((packList ctx (packStep ctx ch c).2 rest).1.map
            (fun e => e.h)).foldr max 0) :=
        max_le_max hstep (le_refl _)
      _ = max (maxD ch - minD ch) (max (packedHeight ctx c)
          (((packList ctx (packStep ctx ch c).2 rest).1.map
            (fun e => e.h)).foldr max 0)) := max_assoc _ _ _

theorem packStates_chain_unfocused {ctx : Ctx} :
    ∀ (l : List Item) (ch : List ℚ),
    (∀ c ∈ l, ctx.focusedItemId ≠ some c.id) →
    List.Chain' (fun a b => ∀ i, a.getD i 0 ≤ b.getD i 0)
      (packStates ctx ch l)
  | [], ch, _ => List.chain'_singleton ch
  | c :: rest, ch, hnf => by
    have ih := packStates_chain_unfocused rest (packStep ctx ch c).2
      (fun d hd => hnf d (List.mem_cons_of_mem _ hd))
    show List.Chain' _ (ch :: packStates ctx (packStep ctx ch c).2 rest)
    apply List.chain'_cons'.mpr
    refine ⟨?_, ih⟩
    intro y hy
    have hhead : (packStates ctx (packStep ctx ch c).2 rest).head? =
        some (packStep ctx ch c).2 := by
      cases rest <;> rfl
    rw [hhead] at hy
    have hyeq : y = (packStep ctx ch c).2 := by
      simpa [eq_comm] using hy
    rw [hyeq]
    exact packStep_mono_unfocused (hnf c (by simp))

/-! ### Listener bookkeeping model for `init` / `initClickOutside` / `destroy` -/

/-- Event-listener bookkeeping: JS matches listeners in
`addEventListener` / `removeEventListener` by function identity, so function
objects are identified here by an allocation counter; every evaluation of an
arrow-function expression allocates a fresh identity. -/
structure DomState where
  winListeners : List (String × Nat)
  docListeners : List (String × Nat)
  observerConnected : Bool
  containerCleared : Bool
  nextId : Nat
  deriving Repr, DecidableEq

/-- Line 61 of masonry-gallery.js, in `init`:
`window.addEventListener('resize', () => this.handleResize())`.
Returns the identity of the closure that was registered. -/
def initResize (s : DomState) : Nat × DomState :=
  (s.nextId,
    { s with winListeners := s.winListeners ++ [("resize", s.nextId)],
             nextId := s.nextId + 1 })

/-- Lines 92-99 of masonry-gallery.js: `setupResizeObserver` (called from
`init`) connects the resize observer. -/
def setupObserver (s : DomState) : DomState :=
  { s with observerConnected := true }

/-- Lines 400-407 of masonry-gallery.js: `initClickOutside` registers a
document-level click listener (never referenced again). -/
def initClickOutside (s : DomState) : Nat × DomState :=
  (s.nextId,
    { s with docListeners := s.docListeners ++ [("click", s.nextId)],
             nextId := s.nextId + 1 })

/-- Lines 409-416 of masonry-gallery.js: `destroy`.  It disconnects the
observer, evaluates `window.removeEventListener('resize', () => this.handleResize())`
— whose second argument is a freshly allocated arrow function, not the
closure registered by `init` — and clears the container. -/
def destroy (s : DomState) : DomState :=
  let s1 := { s with observerConnected := false }
  let freshId := s1.nextId
  let s2 := { s1 with nextId := s1.nextId + 1 }
  let keep := fun (p : String × Nat) => !(p.1 == "resize" && p.2 == freshId)
  let s3 := { s2 with winListeners := s2.winListeners.filter keep }
  { s3 with containerCleared := true }

/-! ### Claims -/

/-- C9: the claim states that `destroy` detaches all observers and all event
listeners the gallery attached.  The code disconnects the observer and clears
the content, but `removeEventListener` is called with a freshly created arrow
function, so the `resize` listener registered by `init` stays attached, and
the document-level click listener added by `initClickOutside` is never
removed: after the init / initClickOutside / destroy sequence both listeners
are still present. -/
theorem C9_destroy_listener_leak :
    (destroy (initClickOutside (initResize
        (setupObserver ⟨[], [], false, false, 0⟩)).2).2).observerConnected
        = false ∧
    (destroy (initClickOutside (initResize
        (setupObserver ⟨[], [], false, false, 0⟩)).2).2).containerCleared
        = true ∧
    ("resize", (initResize (setupObserver ⟨[], [], false, false, 0⟩)).1) ∈
      (destroy (initClickOutside (initResize
        (setupObserver ⟨[], [], false, false, 0⟩)).2).2).winListeners ∧
    ("click", (initClickOutside (initResize
        (setupObserver ⟨[], [], false, false, 0⟩)).2).1) ∈
      (destroy (initClickOutside (initResize
        (setupObserver ⟨[], [], false, false, 0⟩)).2).2).docListeners := by
  decide

/-- C8 counterexample: the claim says activating an already-focused linked
item by Enter/Space opens the link; but the keydown listener branches only on
the key and always toggles focus — it never opens the url. -/
theorem C8_counterexample :
    keydownAction "Enter" true (some "https://example.com") = Action.toggle ∧
    Action.toggle ≠
      Action.openUrl "https://example.com" "_blank" "noopener" := by
  exact ⟨rfl, by decide⟩

/-- C8 amended: clicking an already-focused item with a truthy url opens it
in a new browsing context with the `noopener` feature and does not toggle
focus; Enter/Space on a focused item always toggles focus (and never opens
the url). -/
theorem C8_amended (u : String) (hu : u ≠ "") (b : Bool) (uo : Option String) :
    clickAction true (some u) = Action.openUrl u "_blank" "noopener" ∧
    clickAction true (some u) ≠ Action.toggle ∧
    keydownAction "Enter" b uo = Action.toggle ∧
    keydownAction " " b uo = Action.toggle := by
  have ht : strTruthy (some u) = true := by
    simp [strTruthy]
    exact hu
  refine ⟨?_, ?_, rfl, rfl⟩
  · simp [clickAction, ht]
  · simp [clickAction, ht]

/-- C8 witness: the amended statement at a concrete url. -/
theorem C8_witness :
    ("https://a.example" : String) ≠ "" ∧
    (clickAction true (some "https://a.example") =
        Action.openUrl "https://a.example" "_blank" "noopener" ∧
      clickAction true (some "https://a.example") ≠ Action.toggle ∧
      keydownAction "Enter" true (some "https://a.example") = Action.toggle ∧
      keydownAction " " true (some "https://a.example") = Action.toggle) :=
  ⟨by decide, C8_amended "https://a.example" (by decide) true
    (some "https://a.example")⟩

/-- C6: the column planner is a pure function of the viewport width with
exactly the stated breakpoints, including the boundary values. -/
theorem C6_column_planner (w : ℚ) :
    (updateColumns w = 5 ↔ 1500 ≤ w) ∧
    (updateColumns w = 4 ↔ 1000 ≤ w ∧ w < 1500) ∧
    (updateColumns w = 3 ↔ 600 ≤ w ∧ w < 1000) ∧
    (updateColumns w = 2 ↔ 400 ≤ w ∧ w < 600) ∧
    (updateColumns w = 1 ↔ w < 400) ∧
    updateColumns 1499 = 4 ∧ updateColumns 1500 = 5 ∧
    updateColumns 999 = 3 ∧ updateColumns 1000 = 4 ∧
    updateColumns 399 = 1 ∧ updateColumns 400 = 2 := by
  have hb : updateColumns 1499 = 4 ∧ updateColumns 1500 = 5 ∧
      updateColumns 999 = 3 ∧ updateColumns 1000 = 4 ∧
      updateColumns 399 = 1 ∧ updateColumns 400 = 2 := by
    refine ⟨?_, ?_, ?_, ?_, ?_, ?_⟩ <;> norm_num [updateColumns]
  refine ⟨?_, ?_, ?_, ?_, ?_, hb.1, hb.2.1, hb.2.2.1, hb.2.2.2.1,
    hb.2.2.2.2.1, hb.2.2.2.2.2⟩ <;>
    unfold updateColumns <;>
    split_ifs with h1 h2 h3 h4 <;>
    constructor <;>
    intro hc <;>
    try exact absurd rfl (by norm_num)
  all_goals first
    | linarith
    | (exact ⟨by linarith, by linarith⟩)

/-- C4: for nonzero container width the packer is a pure function of
(item list, column count, container width, viewport height, focused id) —
independent of the previous grid — calling it twice with the same inputs is
idempotent (for every width, including the width-0 no-op), and packing with a
focus and then packing with no focus restores exactly the no-focus packing. -/
theorem C4_packer_pure (prev1 prev2 : List GridEntry) (items : List Item)
    (columns : Nat) (width ih : ℚ) (fid : Option Int) (i : Int)
    (hw : width ≠ 0) :
    (calculateGrid prev1 items columns width ih fid =
      calculateGrid prev2 items columns width ih fid) ∧
    (∀ w2 : ℚ,
      calculateGrid (calculateGrid prev1 items columns w2 ih fid)
          items columns w2 ih fid =
        calculateGrid prev1 items columns w2 ih fid) ∧
    (calculateGrid (calculateGrid prev1 items columns width ih (some i))
        items columns width ih none =
      calculateGrid prev1 items columns width ih none) := by
  refine ⟨?_, ?_, ?_⟩
  · simp [calculateGrid, hw]
  · intro w2
    by_cases hw2 : w2 = 0
    · simp [calculateGrid, hw2]
    · simp [calculateGrid, hw2]
  · simp [calculateGrid, hw]

/-- C4 witness: the purity statement at concrete inputs. -/
theorem C4_witness :
    ((1 : ℚ) ≠ 0) ∧
    ((calculateGrid [] [] 2 1 1 none = calculateGrid [default] [] 2 1 1 none) ∧
      (∀ w2 : ℚ,
        calculateGrid (calculateGrid [] [] 2 w2 1 none) [] 2 w2 1 none =
          calculateGrid [] [] 2 w2 1 none) ∧
      (calculateGrid (calculateGrid [] [] 2 1 1 (some 3)) [] 2 1 1 none =
        calculateGrid [] [] 2 1 1 none)) :=
  ⟨by norm_num, C4_packer_pure [] [default] [] 2 1 1 none 3 (by norm_num)⟩

theorem getD_map_const : ∀ {l : List ℚ} {v : ℚ} {i : Nat},
    (l.map fun _ => v).getD i 0 = if i < l.length then v else 0
  | [], v, i => by simp
  | x :: t, v, 0 => by simp
  | x :: t, v, i + 1 => by
    simp only [List.map_cons, List.getD_cons_succ]
    rw [getD_map_const (l := t)]
    by_cases h : i < t.length
    · rw [if_pos h, if_pos (by simpa using Nat.succ_lt_succ h)]
    · rw [if_neg h, if_neg (by simpa using fun hc => h (Nat.lt_of_succ_lt_succ hc))]

theorem pairwise_id_unique {items : List Item} {it d : Item}
    (hids : items.Pairwise (fun a b => a.id ≠ b.id))
    (hmem : it ∈ items) (hd : d ∈ items) (heq : d.id = it.id) : d = it := by
  induction items with
  | nil => cases hmem
  | cons x t ih =>
    rcases List.pairwise_cons.mp hids with ⟨hx, ht⟩
    rcases List.mem_cons.mp hmem with rfl | hm2
    · rcases List.mem_cons.mp hd with rfl | hd2
      · rfl
      · exact absurd heq.symm (hx d hd2)
    · rcases List.mem_cons.mp hd with rfl | hd2
      · exact absurd heq (hx it hm2)
      · exact ih ht hm2 hd2

/-- C3: every non-focused item is packed into the first column of minimum
running height: with column width = container width / column count it is
placed at x = column index × column width and y = that column's current
height, its packed height is max(80, round(column width × ratio)) and is
added to exactly that column; the ratio is the item's ratio field when
truthy (the natural aspect ratio set by enrichment), else the
height-hint-to-width ratio when both parts are truthy, else 1. -/
theorem C3_unfocused_step (ctx : Ctx) (ch : List ℚ) (child : Item)
    (hne : ch ≠ []) (hnf : ctx.focusedItemId ≠ some child.id) :
    ∃ c : Nat, c < ch.length ∧
      (∀ j, j < ch.length → ch.getD c 0 ≤ ch.getD j 0) ∧
      (∀ j, j < c → ch.getD c 0 < ch.getD j 0) ∧
      packStep ctx ch child =
        (⟨child, (ctx.width / (ctx.columns : ℚ)) * (c : ℚ), ch.getD c 0,
            ctx.width / (ctx.columns : ℚ),
            ((max 80 (jsRound ((ctx.width / (ctx.columns : ℚ)) *
              itemAspect child)) : ℤ) : ℚ), false⟩,
          ch.set c (ch.getD c 0 +
            ((max 80 (jsRound ((ctx.width / (ctx.columns : ℚ)) *
              itemAspect child)) : ℤ) : ℚ))) ∧
      (∀ r : ℚ, child.aspect = some r → r ≠ 0 → itemAspect child = r) ∧
      (∀ wv : ℚ, (child.aspect = none ∨ child.aspect = some 0) →
        child.width = some wv → wv ≠ 0 → child.height ≠ 0 →
        itemAspect child = child.height / wv) ∧
      ((child.aspect = none ∨ child.aspect = some 0) →
        (child.width = none ∨ child.width = some 0 ∨ child.height = 0) →
        itemAspect child = 1) := by
  refine ⟨idxOfMin ch, idxOfMin_lt hne, ?_, ?_, ?_, ?_, ?_, ?_⟩
  · intro j hj
    rw [getD_idxOfMin hne]
    exact minD_le_of_mem (getD_mem hj)
  · intro j hj
    rw [getD_idxOfMin hne]
    exact minD_lt_getD_of_lt_idxOfMin hj hne
  · rw [packStep_unfocused hnf]
    rfl
  · intro r hr hr0
    simp [itemAspect, optTruthy, hr, hr0]
  · intro wv ha hw hw0 hh0
    have hat : optTruthy child.aspect = false := by
      rcases ha with h | h <;> simp [optTruthy, h]
    have hht : (child.height != 0) = true := by simp [hh0]
    have hwt : optTruthy (some wv) = true := by simp [optTruthy, hw0]
    simp only [itemAspect]
    rw [hat, hw]
    simp [hht, hwt]
  · intro ha hb
    have hat : optTruthy child.aspect = false := by
      rcases ha with h | h <;> simp [optTruthy, h]
    rcases hb with h | h | h
    · have hwt : optTruthy child.width = false := by simp [optTruthy, h]
      simp only [itemAspect]
      rw [hat]
      simp [hwt]
    · have hwt : optTruthy child.width = false := by simp [optTruthy, h]
      simp only [itemAspect]
      rw [hat]
      simp [hwt]
    · have hht : (child.height != 0) = false := by simp [h]
      simp only [itemAspect]
      rw [hat]
      simp [hht]

/-- C3 witness: the statement at a concrete state and item. -/
theorem C3_witness :
    (([0, 100] : List ℚ) ≠ [] ∧
      (Ctx.mk 200 2 100 none).focusedItemId ≠
        some (Item.mk 7 "c" 50 none none (some 2) none none).id) ∧
    (∃ c : Nat, c < ([0, 100] : List ℚ).length ∧
      (∀ j, j < ([0, 100] : List ℚ).length →
        ([0, 100] : List ℚ).getD c 0 ≤ ([0, 100] : List ℚ).getD j 0) ∧
      (∀ j, j < c → ([0, 100] : List ℚ).getD c 0 <
        ([0, 100] : List ℚ).getD j 0) ∧
      packStep (Ctx.mk 200 2 100 none) [0, 100]
          (Item.mk 7 "c" 50 none none (some 2) none none) =
        (⟨Item.mk 7 "c" 50 none none (some 2) none none,
            ((Ctx.mk 200 2 100 none).width /
              ((Ctx.mk 200 2 100 none).columns : ℚ)) * (c : ℚ),
            ([0, 100] : List ℚ).getD c 0,
            (Ctx.mk 200 2 100 none).width /
              ((Ctx.mk 200 2 100 none).columns : ℚ),
            ((max 80 (jsRound (((Ctx.mk 200 2 100 none).width /
              ((Ctx.mk 200 2 100 none).columns : ℚ)) *
              itemAspect (Item.mk 7 "c" 50 none none (some 2) none none)))
              : ℤ) : ℚ), false⟩,
          ([0, 100] : List ℚ).set c (([0, 100] : List ℚ).getD c 0 +
            ((max 80 (jsRound (((Ctx.mk 200 2 100 none).width /
              ((Ctx.mk 200 2 100 none).columns : ℚ)) *
              itemAspect (Item.mk 7 "c" 50 none none (some 2) none none)))
              : ℤ) : ℚ))) ∧
      (∀ r : ℚ, (Item.mk 7 "c" 50 none none (some 2) none none).aspect =
          some r → r ≠ 0 →
        itemAspect (Item.mk 7 "c" 50 none none (some 2) none none) = r) ∧
      (∀ wv : ℚ,
        ((Item.mk 7 "c" 50 none none (some 2) none none).aspect = none ∨
          (Item.mk 7 "c" 50 none none (some 2) none none).aspect = some 0) →
        (Item.mk 7 "c" 50 none none (some 2) none none).width = some wv →
        wv ≠ 0 →
        (Item.mk 7 "c" 50 none none (some 2) none none).height ≠ 0 →
        itemAspect (Item.mk 7 "c" 50 none none (some 2) none none) =
          (Item.mk 7 "c" 50 none none (some 2) none none).height / wv) ∧
      (((Item.mk 7 "c" 50 none none (some 2) none none).aspect = none ∨
          (Item.mk 7 "c" 50 none none (some 2) none none).aspect = some 0) →
        ((Item.mk 7 "c" 50 none none (some 2) none none).width = none ∨
          (Item.mk 7 "c" 50 none none (some 2) none none).width = some 0 ∨
          (Item.mk 7 "c" 50 none none (some 2) none none).height = 0) →
        itemAspect (Item.mk 7 "c" 50 none none (some 2) none none) = 1)) :=
  ⟨⟨by simp, by simp⟩,
    C3_unfocused_step (Ctx.mk 200 2 100 none) [0, 100]
      (Item.mk 7 "c" 50 none none (some 2) none none)
      (by simp) (by simp)⟩

/-- Concrete items for the C2 counterexample: an ordinary square item and an
item whose id is 0. -/
def itemSq : Item := ⟨1, "a", 0, none, none, some 1, none, none⟩

/-- Item with id 0 (a legal unique identifier), height hint 100. -/
def itemZero : Item := ⟨0, "b", 100, none, none, none, none, none⟩

/-- The grid the packer produces for items [itemSq, itemZero], 1 column,
width 100, viewport height 100, focused id 0. -/
def gridC2 : List GridEntry :=
  calculateGrid [] [itemSq, itemZero] 1 100 100 (some 0)

/-- C2 counterexample: the focused id 0 is set and matches `itemZero`, yet —
because of the JS truthiness test `this.focusedItemId ? ... : -1` in the
reorder — the matching item is not processed first: the first grid entry is
the other item, and its y (= 0) is strictly below the focused entry's bottom
edge, contradicting the claim that every other entry satisfies
y ≥ focused.y + focused.h. -/
theorem C2_counterexample :
    (gridC2.getD 1 default).focused = true ∧
    (gridC2.getD 1 default).item.id = 0 ∧
    (gridC2.getD 0 default).focused = false ∧
    (gridC2.getD 0 default).item.id ≠ 0 ∧
    (gridC2.getD 0 default).y <
      (gridC2.getD 1 default).y + (gridC2.getD 1 default).h := by
  have hg : gridC2.map (fun e => (e.item.id, e.x, e.y, e.w, e.h, e.focused)) =
      [(1, 0, 0, 100, 100, false), (0, 0, 100, 100, 90, true)] := by
    norm_num [gridC2, calculateGrid, packList, packStep, orderedItems,
      idxOfMin, minD, itemAspect, jsRound, optTruthy, itemSq, itemZero,
      List.findIdx_cons, List.replicate, min_def, max_def, Int.floor_eq_iff,
      packedHeight, focusedHeight, columnWidth]
  have hlen : gridC2.length = 2 := by
    have := congrArg List.length hg
    simpa using this
  match hgrid : gridC2 with
  | [] => rw [hgrid] at hlen; simp at hlen
  | [e] => rw [hgrid] at hlen; simp at hlen
  | e0 :: e1 :: rest =>
    rw [hgrid] at hg hlen
    have hrest : rest = [] := by
      simpa using List.eq_nil_of_length_eq_zero (by simpa using hlen)
    subst hrest
    simp only [List.map_cons, List.map_nil, List.cons.injEq] at hg
    rcases hg with ⟨h0, h1, _⟩
    have h0id : e0.item.id = 1 := congrArg (fun p => p.1) h0
    have h0y : e0.y = 0 := congrArg (fun p => p.2.2.1) h0
    have h0f : e0.focused = false := congrArg (fun p => p.2.2.2.2.2) h0
    have h1id : e1.item.id = 0 := congrArg (fun p => p.1) h1
    have h1y : e1.y = 100 := congrArg (fun p => p.2.2.1) h1
    have h1h : e1.h = 90 := congrArg (fun p => p.2.2.2.2.1) h1
    have h1f : e1.focused = true := congrArg (fun p => p.2.2.2.2.2) h1
    refine ⟨by simpa using h1f, by simpa using h1id, by simpa using h0f,
      ?_, ?_⟩
    · simp only [List.getD_cons_zero]
      rw [h0id]
      norm_num
    · simp only [List.getD_cons_zero, List.getD_cons_succ]
      rw [h0y, h1y, h1h]
      norm_num

/-- C2 amended: when a nonzero focused item id is set and matches an item of
an id-unique item list (item ids are unique per the data model), the packer
processes that item first — all other items keeping their original relative
order — places it at x = 0 and y = 0 with the full container width and
height max(height hint / 2, floor(90% of the viewport height)), raises every
column's running height to its bottom edge, and every other entry starts at
or below that bottom edge. -/
theorem C2_focused_first (prev : List GridEntry) (items : List Item)
    (columns : Nat) (width ih : ℚ) (f : Int) (it : Item)
    (hw : width ≠ 0) (hcol : 1 ≤ columns) (hf : f ≠ 0)
    (hids : items.Pairwise (fun a b => a.id ≠ b.id))
    (hmem : it ∈ items) (hid : it.id = f) :
    ∃ idx : Nat, idx < items.length ∧
      items.getD idx default = it ∧
      (calculateGrid prev items columns width ih (some f)).map
          (fun e => e.item) = it :: items.eraseIdx idx ∧
      (calculateGrid prev items columns width ih (some f)).length =
        items.length ∧
      ((calculateGrid prev items columns width ih (some f)).getD 0 default) =
        ⟨it, 0, 0, width, max (it.height / 2) ((⌊ih * (9/10)⌋ : ℤ) : ℚ),
          true⟩ ∧
      (∀ i, i < columns →
        ((packStep ⟨width, columns, ih, some f⟩
            (List.replicate columns 0) it).2).getD i 0 =
          max (it.height / 2) ((⌊ih * (9/10)⌋ : ℤ) : ℚ)) ∧
      (∀ j, 1 ≤ j →
        j < (calculateGrid prev items columns width ih (some f)).length →
        max (it.height / 2) ((⌊ih * (9/10)⌋ : ℤ) : ℚ) ≤
          ((calculateGrid prev items columns width ih (some f)).getD j
            default).y) := by
  have hcz : columns ≠ 0 := by omega
  have hfi : items.findIdx? (fun i => i.id == f) =
      some (items.findIdx (fun i => i.id == f)) :=
    findIdx?_of_mem_id hmem hid
  rcases orderedItems_found hf hfi with ⟨hidx, hord⟩
  rcases List.findIdx?_eq_some_iff_getElem.mp hfi with ⟨hlt, hp, _⟩
  have hgetd : items.getD (items.findIdx (fun i => i.id == f)) default =
      items.get ⟨items.findIdx (fun i => i.id == f), hlt⟩ := by
    rw [List.getD_eq_getElem?_getD, List.getElem?_eq_getElem hlt]
    rfl
  have hdid : (items.get ⟨items.findIdx (fun i => i.id == f), hlt⟩).id = f := by
    simpa [beq_iff_eq] using hp
  have hdit : items.get ⟨items.findIdx (fun i => i.id == f), hlt⟩ = it := by
    apply pairwise_id_unique hids hmem
    · exact List.get_mem _ _ _
    · rw [hdid, hid]
  have hord2 : orderedItems items (some f) =
      it :: items.eraseIdx (items.findIdx (fun i => i.id == f)) := by
    rw [hord, hgetd, hdit]
  have hfoc : (Ctx.mk width columns ih (some f)).focusedItemId =
      some it.id := by
    simp [hid]
  have hch0 : (List.replicate columns (0 : ℚ)) ≠ [] := replicate_ne_nil hcz
  have hmin0 : minD (List.replicate columns (0 : ℚ)) = 0 :=
    minD_replicate hcz
  have hcalc : calculateGrid prev items columns width ih (some f) =
      (packList (Ctx.mk width columns ih (some f))
        (List.replicate columns 0)
        (it :: items.eraseIdx (items.findIdx (fun i => i.id == f)))).1 := by
    rw [calculateGrid, if_neg hw, hord2]
  have hstep := @packStep_focused (Ctx.mk width columns ih (some f))
    (List.replicate columns 0) it hfoc
  have hfh : focusedHeight (Ctx.mk width columns ih (some f)) it =
      max (it.height / 2) ((⌊ih * (9/10)⌋ : ℤ) : ℚ) := rfl
  have hnfr : ∀ d ∈ items.eraseIdx (items.findIdx (fun i => i.id == f)),
      (Ctx.mk width columns ih (some f)).focusedItemId ≠ some d.id := by
    intro d hd
    have := eraseIdx_findIdx_id_ne items f hids _ hfi d hd
    simp only [Ctx.focusedItemId]
    intro hc
    exact this (Option.some.inj hc).symm
  have hch1len : ((packStep (Ctx.mk width columns ih (some f))
      (List.replicate columns 0) it).2).length = columns := by
    rw [packStep_len]
    simp
  have hne1 : (packStep (Ctx.mk width columns ih (some f))
      (List.replicate columns 0) it).2 ≠ [] := by
    intro hnil
    rw [hnil] at hch1len
    simp at hch1len
    omega
  refine ⟨items.findIdx (fun i => i.id == f), hlt, by rw [hgetd, hdit],
    ?_, ?_, ?_, ?_, ?_⟩
  · rw [hcalc, packList_items]
  · rw [hcalc, packList_len1]
    have := List.length_eraseIdx_of_lt hlt
    simp only [List.length_cons, this]
    omega
  · rw [hcalc, packList_cons]
    simp only [List.getD_cons_zero]
    rw [hstep]
    simp only [hmin0]
    rw [hfh]
  · intro i hi
    have h2 : (packStep (Ctx.mk width columns ih (some f))
        (List.replicate columns 0) it).2 =
        (List.replicate columns (0 : ℚ)).map
          (fun _ => minD (List.replicate columns (0 : ℚ)) +
            focusedHeight (Ctx.mk width columns ih (some f)) it) :=
      congrArg Prod.snd hstep
    rw [h2, getD_map_const]
    rw [if_pos (by simpa using hi)]
    rw [hmin0, hfh]
    ring
  · intro j hj1 hj2
    rw [hcalc] at hj2 ⊢
    rw [packList_cons] at hj2 ⊢
    match j, hj1 with
    | j + 1, _ =>
      simp only [List.getD_cons_succ]
      simp only [List.length_cons] at hj2
      have hjm : j < ((packList (Ctx.mk width columns ih (some f))
          (packStep (Ctx.mk width columns ih (some f))
            (List.replicate columns 0) it).2
          (items.eraseIdx (items.findIdx (fun i => i.id == f)))).1).length :=
        Nat.lt_of_succ_lt_succ hj2
      have hememb : ((packList (Ctx.mk width columns ih (some f))
          (packStep (Ctx.mk width columns ih (some f))
            (List.replicate columns 0) it).2
          (items.eraseIdx (items.findIdx (fun i => i.id == f)))).1).getD j
            default ∈
          (packList (Ctx.mk width columns ih (some f))
            (packStep (Ctx.mk width columns ih (some f))
              (List.replicate columns 0) it).2
            (items.eraseIdx (items.findIdx (fun i => i.id == f)))).1 := by
        rw [List.getD_eq_getElem?_getD, List.getElem?_eq_getElem hjm]
        exact List.getElem_mem _
      rcases packList_entries_unfocused hne1 hnfr _ hememb with
        ⟨_, _, _, col, hcl, _, hylb, _⟩
      rw [hch1len] at hcl
      have hv : ((packStep (Ctx.mk width columns ih (some f))
          (List.replicate columns 0) it).2).getD col 0 =
          0 + max (it.height / 2) ((⌊ih * (9/10)⌋ : ℤ) : ℚ) := by
        have h2 : (packStep (Ctx.mk width columns ih (some f))
            (List.replicate columns 0) it).2 =
            (List.replicate columns (0 : ℚ)).map
              (fun _ => minD (List.replicate columns (0 : ℚ)) +
                focusedHeight (Ctx.mk width columns ih (some f)) it) :=
          congrArg Prod.snd hstep
        rw [h2, getD_map_const, if_pos (by simpa using hcl), hmin0, hfh]
      calc max (it.height / 2) ((⌊ih * (9/10)⌋ : ℤ) : ℚ) =
          0 + max (it.height / 2) ((⌊ih * (9/10)⌋ : ℤ) : ℚ) := by ring
        _ = ((packStep (Ctx.mk width columns ih (some f))
            (List.replicate columns 0) it).2).getD col 0 := hv.symm
        _ ≤ _ := hylb

/-- Item with the nonzero id 2 used in several witnesses. -/
def itemD : Item := ⟨2, "d", 100, none, none, none, none, none⟩

/-- C2 witness: the amended statement at concrete inputs (focused id 2,
matching `itemD`, one column, width 100, viewport height 100). -/
theorem C2_witness :
    ((100 : ℚ) ≠ 0 ∧ 1 ≤ 1 ∧ (2 : Int) ≠ 0 ∧
      ([itemSq, itemD] : List Item).Pairwise (fun a b => a.id ≠ b.id) ∧
      itemD ∈ [itemSq, itemD] ∧ itemD.id = 2) ∧
    (∃ idx : Nat, idx < ([itemSq, itemD] : List Item).length ∧
      ([itemSq, itemD] : List Item).getD idx default = itemD ∧
      (calculateGrid [] [itemSq, itemD] 1 100 100 (some 2)).map
          (fun e => e.item) = itemD :: ([itemSq, itemD] : List Item).eraseIdx idx ∧
      (calculateGrid [] [itemSq, itemD] 1 100 100 (some 2)).length =
        ([itemSq, itemD] : List Item).length ∧
      ((calculateGrid [] [itemSq, itemD] 1 100 100 (some 2)).getD 0 default) =
        ⟨itemD, 0, 0, 100,
          max (itemD.height / 2) ((⌊(100 : ℚ) * (9/10)⌋ : ℤ) : ℚ), true⟩ ∧
      (∀ i, i < 1 →
        ((packStep ⟨100, 1, 100, some 2⟩ (List.replicate 1 0) itemD).2).getD
          i 0 = max (itemD.height / 2) ((⌊(100 : ℚ) * (9/10)⌋ : ℤ) : ℚ)) ∧
      (∀ j, 1 ≤ j →
        j < (calculateGrid [] [itemSq, itemD] 1 100 100 (some 2)).length →
        max (itemD.height / 2) ((⌊(100 : ℚ) * (9/10)⌋ : ℤ) : ℚ) ≤
          ((calculateGrid [] [itemSq, itemD] 1 100 100 (some 2)).getD j
            default).y)) :=
  ⟨⟨by norm_num, le_refl 1, by decide, by decide, by decide, by decide⟩,
    C2_focused_first [] [itemSq, itemD] 1 100 100 2 itemD (by norm_num)
      (le_refl 1) (by decide) (by decide) (by decide) (by decide)⟩

/-! ### Focus scenarios and grid-level invariants -/

theorem focus_scenario (items : List Item) (fid : Option Int)
    (hids : items.Pairwise (fun a b => a.id ≠ b.id))
    (hfid : fid = none ∨ ∃ g : Int, fid = some g ∧ g ≠ 0) :
    (∀ c ∈ orderedItems items fid, fid ≠ some c.id) ∨
    (∃ it rest, orderedItems items fid = it :: rest ∧
      fid = some it.id ∧ ∀ d ∈ rest, fid ≠ some d.id) := by
  rcases hfid with rfl | ⟨g, rfl, hg⟩
  · left
    intro c _
    simp
  · by_cases hex : ∃ x ∈ items, x.id = g
    · right
      rcases hex with ⟨x, hx, hxid⟩
      have hfi := findIdx?_of_mem_id hx hxid
      rcases orderedItems_found hg hfi with ⟨hidx, hord⟩
      rcases List.findIdx?_eq_some_iff_getElem.mp hfi with ⟨hlt, hp, _⟩
      have hgetd : items.getD (items.findIdx (fun i => i.id == g)) default =
          items.get ⟨items.findIdx (fun i => i.id == g), hlt⟩ := by
        rw [List.getD_eq_getElem?_getD, List.getElem?_eq_getElem hlt]
        rfl
      have hdid : (items.get
          ⟨items.findIdx (fun i => i.id == g), hlt⟩).id = g := by
        simpa [beq_iff_eq] using hp
      refine ⟨items.getD (items.findIdx (fun i => i.id == g)) default,
        items.eraseIdx (items.findIdx (fun i => i.id == g)), hord, ?_, ?_⟩
      · rw [hgetd, hdid]
      · intro d hd
        have hne := eraseIdx_findIdx_id_ne items g hids _ hfi d hd
        intro hc
        exact hne (Option.some.inj hc).symm
    · left
      push_neg at hex
      have hfn : items.findIdx? (fun i => i.id == g) = none := by
        rw [List.findIdx?_eq_none_iff]
        intro x hx
        simp [beq_iff_eq]
        exact hex x hx
      rw [orderedItems_not_found hg hfn]
      intro c hc hcc
      exact hex c hc (Option.some.inj hcc).symm

theorem packList_unfocused_shape {ctx : Ctx} :
    ∀ {l : List Item} {ch : List ℚ}, ch ≠ [] →
    ∀ e ∈ (packList ctx ch l).1, e.focused = false →
      e.w = columnWidth ctx ∧
      ∃ c : Nat, c < ch.length ∧ e.x = columnWidth ctx * (c : ℚ)
  | [], _, _, _, he, _ => absurd he (List.not_mem_nil _)
  | c :: rest, ch, hne, e, he, hef => by
    have hne1 : (packStep ctx ch c).2 ≠ [] := by
      intro hnil
      have hlen : ((packStep ctx ch c).2).length = ch.length := packStep_len
      rw [hnil] at hlen
      exact hne (List.eq_nil_of_length_eq_zero hlen.symm)
    rw [packList_cons] at he
    rcases List.mem_cons.mp he with rfl | he2
    · by_cases hifoc : ctx.focusedItemId = some c.id
      · rw [packStep_focused hifoc] at hef
        simp at hef
      · refine ⟨by rw [packStep_unfocused hifoc], idxOfMin ch,
          idxOfMin_lt hne, by rw [packStep_unfocused hifoc]⟩
    · rcases packList_unfocused_shape hne1 e he2 hef with ⟨hw, cc, hcl, hx⟩
      refine ⟨hw, cc, ?_, hx⟩
      rw [@packStep_len ctx ch c] at hcl
      exact hcl

theorem grid_y_nonneg (prev : List GridEntry) (items : List Item)
    (columns : Nat) (width ih : ℚ) (fid : Option Int)
    (hcol : 1 ≤ columns) (hw : width ≠ 0) (hih : 0 ≤ ih)
    (hids : items.Pairwise (fun a b => a.id ≠ b.id))
    (hfid : fid = none ∨ ∃ g : Int, fid = some g ∧ g ≠ 0) :
    ∀ e ∈ calculateGrid prev items columns width ih fid, 0 ≤ e.y := by
  have hcz : columns ≠ 0 := by omega
  have hne0 : (List.replicate columns (0 : ℚ)) ≠ [] := replicate_ne_nil hcz
  rw [calculateGrid, if_neg hw]
  rcases focus_scenario items fid hids hfid with hS1 |
    ⟨it, rest, hord, hfoc, hrest⟩
  · intro e he
    rcases packList_entries_unfocused hne0 hS1 e he with
      ⟨_, _, _, c, hcl, _, hylb, _⟩
    rw [getD_replicate] at hylb
    exact hylb
  · rw [hord, packList_cons]
    have hne1 : (packStep ⟨width, columns, ih, fid⟩
        (List.replicate columns 0) it).2 ≠ [] := by
      intro hnil
      have hlen : ((packStep ⟨width, columns, ih, fid⟩
          (List.replicate columns 0) it).2).length =
          (List.replicate columns (0 : ℚ)).length := packStep_len
      rw [hnil] at hlen
      exact hne0 (List.eq_nil_of_length_eq_zero hlen.symm)
    intro e he
    rcases List.mem_cons.mp he with rfl | he2
    · rw [packStep_focused hfoc]
      simp [minD_replicate hcz]
    · rcases packList_entries_unfocused hne1 hrest e he2 with
        ⟨_, _, _, c, hcl, _, hylb, _⟩
      have hch1 : (packStep ⟨width, columns, ih, fid⟩
          (List.replicate columns 0) it).2 =
          (List.replicate columns (0 : ℚ)).map
            (fun _ => minD (List.replicate columns (0 : ℚ)) +
              focusedHeight ⟨width, columns, ih, fid⟩ it) :=
        congrArg Prod.snd (packStep_focused hfoc)
      have hval : 0 ≤ ((packStep ⟨width, columns, ih, fid⟩
          (List.replicate columns 0) it).2).getD c 0 := by
        rw [hch1, getD_map_const]
        by_cases hcc : c < (List.replicate columns (0 : ℚ)).length
        · rw [if_pos hcc, minD_replicate hcz]
          have := @focusedHeight_nonneg
            (Ctx.mk width columns ih fid) it hih
          linarith
        · rw [if_neg hcc]
      exact le_trans hval hylb

theorem grid_same_x_ordered (prev : List GridEntry) (items : List Item)
    (columns : Nat) (width ih : ℚ) (fid : Option Int)
    (hcol : 1 ≤ columns) (hw : 0 < width)
    (hids : items.Pairwise (fun a b => a.id ≠ b.id))
    (hfid : fid = none ∨ ∃ g : Int, fid = some g ∧ g ≠ 0) :
    ∀ i j, i < j →
      j < (calculateGrid prev items columns width ih fid).length →
      ((calculateGrid prev items columns width ih fid).getD i
        default).focused = false →
      ((calculateGrid prev items columns width ih fid).getD j
        default).focused = false →
      ((calculateGrid prev items columns width ih fid).getD i default).x =
        ((calculateGrid prev items columns width ih fid).getD j default).x →
      ((calculateGrid prev items columns width ih fid).getD i default).y +
        ((calculateGrid prev items columns width ih fid).getD i default).h ≤
        ((calculateGrid prev items columns width ih fid).getD j default).y := by
  have hcz : columns ≠ 0 := by omega
  have hwne : width ≠ 0 := ne_of_gt hw
  have hne0 : (List.replicate columns (0 : ℚ)) ≠ [] := replicate_ne_nil hcz
  have hcw : 0 < columnWidth ⟨width, columns, ih, fid⟩ := by
    apply div_pos hw
    exact_mod_cast Nat.pos_of_ne_zero hcz
  rw [calculateGrid, if_neg hwne]
  rcases focus_scenario items fid hids hfid with hS1 |
    ⟨it, rest, hord, hfoc, hrest⟩
  · intro i j hij hj _ _ hx
    exact packList_pairwise_unfocused hcw hne0 hS1 i j hij hj hx
  · rw [hord]
    have hne1 : (packStep ⟨width, columns, ih, fid⟩
        (List.replicate columns 0) it).2 ≠ [] := by
      intro hnil
      have hlen : ((packStep ⟨width, columns, ih, fid⟩
          (List.replicate columns 0) it).2).length =
          (List.replicate columns (0 : ℚ)).length := packStep_len
      rw [hnil] at hlen
      exact hne0 (List.eq_nil_of_length_eq_zero hlen.symm)
    intro i j hij hj hfi hfj hx
    rw [packList_cons] at hj hfi hfj hx ⊢
    match i, j, hij with
    | 0, j + 1, _ =>
      simp only [List.getD_cons_zero] at hfi
      rw [packStep_focused hfoc] at hfi
      simp at hfi
    | i + 1, j + 1, hij =>
      simp only [List.getD_cons_succ] at hfi hfj hx ⊢
      simp only [List.length_cons] at hj
      exact packList_pairwise_unfocused hcw hne1 hrest i j
        (Nat.lt_of_succ_lt_succ hij) (Nat.lt_of_succ_lt_succ hj) hx

/-- Tall item: aspect 10, so it packs to height 1000 at column width 100. -/
def itemTall : Item := ⟨1, "t", 0, none, none, some 10, none, none⟩

/-- The grid for [itemTall, itemZero, itemD], 2 columns, width 200, viewport
height 100, focused id 0. -/
def gridC1 : List GridEntry :=
  calculateGrid [] [itemTall, itemZero, itemD] 2 200 100 (some 0)

/-- C1 counterexample: with the focused id 0 (which matches `itemZero`), the
truthiness test skips the reorder, the focused item is packed mid-pass and
resets all column heights downward (1000 drops to 90), after which a later
unfocused item is placed in the same column as `itemTall` with an
overlapping vertical interval — refuting same-column disjointness (and with
it the running-height monotonicity) claimed for every focus state. -/
theorem C1_counterexample :
    (gridC1.getD 0 default).focused = false ∧
    (gridC1.getD 2 default).focused = false ∧
    (gridC1.getD 0 default).x = (gridC1.getD 2 default).x ∧
    (gridC1.getD 2 default).y <
      (gridC1.getD 0 default).y + (gridC1.getD 0 default).h ∧
    (gridC1.getD 0 default).y <
      (gridC1.getD 2 default).y + (gridC1.getD 2 default).h := by
  have hg : gridC1.map (fun e => (e.x, e.y, e.h, e.focused)) =
      [(0, 0, 1000, false), (0, 0, 90, true), (0, 90, 100, false)] := by
    norm_num [gridC1, calculateGrid, packList, packStep, orderedItems,
      idxOfMin, minD, itemAspect, jsRound, optTruthy, itemTall, itemZero,
      itemD, List.findIdx_cons, List.replicate, min_def, max_def,
      Int.floor_eq_iff, packedHeight, focusedHeight, columnWidth]
  match hgrid : gridC1 with
  | [] => rw [hgrid] at hg; simp at hg
  | [e] => rw [hgrid] at hg; simp at hg
  | [e, e'] => rw [hgrid] at hg; simp at hg
  | e0 :: e1 :: e2 :: rest =>
    have hlen : gridC1.length = 3 := by
      have h := congrArg List.length hg
      simpa using h
    rw [hgrid] at hg hlen
    simp only [List.length_cons] at hlen
    have hrest : rest = [] := List.eq_nil_of_length_eq_zero (by omega)
    subst hrest
    simp only [List.map_cons, List.map_nil, List.cons.injEq] at hg
    rcases hg with ⟨h0, h1, h2, -⟩
    have h0x : e0.x = 0 := congrArg (fun p => p.1) h0
    have h0y : e0.y = 0 := congrArg (fun p => p.2.1) h0
    have h0h : e0.h = 1000 := congrArg (fun p => p.2.2.1) h0
    have h0f : e0.focused = false := congrArg (fun p => p.2.2.2) h0
    have h2x : e2.x = 0 := congrArg (fun p => p.1) h2
    have h2y : e2.y = 90 := congrArg (fun p => p.2.1) h2
    have h2h : e2.h = 100 := congrArg (fun p => p.2.2.1) h2
    have h2f : e2.focused = false := congrArg (fun p => p.2.2.2) h2
    simp only [List.getD_cons_zero, List.getD_cons_succ]
    refine ⟨h0f, h2f, by rw [h0x, h2x], ?_, ?_⟩
    · rw [h2y, h0y, h0h]
      norm_num
    · rw [h0y, h2y, h2h]
      norm_num

/-- C1 amended: provided the item ids are pairwise distinct (the data
model's uniqueness requirement) and the focus state is either no focus or a
nonzero (truthy) focused id, every entry of the packed grid has y ≥ 0, any
two distinct unfocused entries with the same x offset (same column) have
disjoint vertical intervals [y, y+h), the successive `colHeights` states of
the pass are pointwise monotonically non-decreasing, and every unfocused
step adds exactly its own packed height to exactly the chosen minimum
column. -/
theorem C1_packer_invariants (prev : List GridEntry) (items : List Item)
    (columns : Nat) (width ih : ℚ) (fid : Option Int)
    (hcol : 1 ≤ columns) (hw : 0 < width) (hih : 0 ≤ ih)
    (hids : items.Pairwise (fun a b => a.id ≠ b.id))
    (hfid : fid = none ∨ ∃ g : Int, fid = some g ∧ g ≠ 0) :
    (∀ e ∈ calculateGrid prev items columns width ih fid, 0 ≤ e.y) ∧
    (∀ i j, i ≠ j →
      i < (calculateGrid prev items columns width ih fid).length →
      j < (calculateGrid prev items columns width ih fid).length →
      ((calculateGrid prev items columns width ih fid).getD i
        default).focused = false →
      ((calculateGrid prev items columns width ih fid).getD j
        default).focused = false →
      ((calculateGrid prev items columns width ih fid).getD i default).x =
        ((calculateGrid prev items columns width ih fid).getD j default).x →
      (((calculateGrid prev items columns width ih fid).getD i default).y +
          ((calculateGrid prev items columns width ih fid).getD i
            default).h ≤
          ((calculateGrid prev items columns width ih fid).getD j
            default).y ∨
        ((calculateGrid prev items columns width ih fid).getD j default).y +
          ((calculateGrid prev items columns width ih fid).getD j
            default).h ≤
          ((calculateGrid prev items columns width ih fid).getD i
            default).y)) ∧
    List.Chain' (fun a b => ∀ k, a.getD k 0 ≤ b.getD k 0)
      (packStates ⟨width, columns, ih, fid⟩ (List.replicate columns 0)
        (orderedItems items fid)) ∧
    (∀ (ch : List ℚ) (child : Item), fid ≠ some child.id →
      (packStep ⟨width, columns, ih, fid⟩ ch child).2 =
        ch.set (idxOfMin ch) (ch.getD (idxOfMin ch) 0 +
          ((packStep ⟨width, columns, ih, fid⟩ ch child).1).h) ∧
      ∀ k, ch.getD k 0 ≤
        ((packStep ⟨width, columns, ih, fid⟩ ch child).2).getD k 0) := by
  have hcz : columns ≠ 0 := by omega
  refine ⟨grid_y_nonneg prev items columns width ih fid hcol
      (ne_of_gt hw) hih hids hfid, ?_, ?_, ?_⟩
  · intro i j hij hi hj hfi hfj hx
    rcases Nat.lt_or_ge i j with h | h
    · left
      exact grid_same_x_ordered prev items columns width ih fid hcol hw
        hids hfid i j h hj hfi hfj hx
    · have h2 : j < i := lt_of_le_of_ne h (Ne.symm hij)
      right
      exact grid_same_x_ordered prev items columns width ih fid hcol hw
        hids hfid j i h2 hi hfj hfi hx.symm
  · rcases focus_scenario items fid hids hfid with hS1 |
      ⟨it, rest, hord, hfoc, hrest⟩
    · exact packStates_chain_unfocused _ _ hS1
    · rw [hord]
      show List.Chain' _ ((List.replicate columns 0) ::
        packStates ⟨width, columns, ih, fid⟩
          (packStep ⟨width, columns, ih, fid⟩
            (List.replicate columns 0) it).2 rest)
      apply List.chain'_cons'.mpr
      refine ⟨?_, packStates_chain_unfocused rest _ hrest⟩
      intro y hy
      have hhead : (packStates ⟨width, columns, ih, fid⟩
          (packStep ⟨width, columns, ih, fid⟩
            (List.replicate columns 0) it).2 rest).head? =
          some (packStep ⟨width, columns, ih, fid⟩
            (List.replicate columns 0) it).2 := by
        cases rest <;> rfl
      rw [hhead] at hy
      have hyeq : y = (packStep ⟨width, columns, ih, fid⟩
          (List.replicate columns 0) it).2 := by
        simpa [eq_comm] using hy
      rw [hyeq]
      intro k
      rw [getD_replicate]
      have hch1 : (packStep ⟨width, columns, ih, fid⟩
          (List.replicate columns 0) it).2 =
          (List.replicate columns (0 : ℚ)).map
            (fun _ => minD (List.replicate columns (0 : ℚ)) +
              focusedHeight ⟨width, columns, ih, fid⟩ it) :=
        congrArg Prod.snd (packStep_focused hfoc)
      rw [hch1, getD_map_const]
      by_cases hk : k < (List.replicate columns (0 : ℚ)).length
      · rw [if_pos hk, minD_replicate hcz]
        have := @focusedHeight_nonneg
          (Ctx.mk width columns ih fid) it hih
        linarith
      · rw [if_neg hk]
  · intro ch child hnf
    have hnf2 : (Ctx.mk width columns ih fid).focusedItemId ≠
        some child.id := hnf
    constructor
    · rw [packStep_unfocused hnf2]
    · exact packStep_mono_unfocused hnf2

/-- C1 witness: the amended invariants at concrete inputs (two items with
distinct ids, two columns, width 200, viewport height 100, no focus). -/
theorem C1_witness :
    ((1 : Nat) ≤ 2 ∧ (0 : ℚ) < 200 ∧ (0 : ℚ) ≤ 100 ∧
      ([itemSq, itemD] : List Item).Pairwise (fun a b => a.id ≠ b.id) ∧
      ((none : Option Int) = none ∨
        ∃ g : Int, (none : Option Int) = some g ∧ g ≠ 0)) ∧
    ((∀ e ∈ calculateGrid [] [itemSq, itemD] 2 200 100 none, 0 ≤ e.y) ∧
    (∀ i j, i ≠ j →
      i < (calculateGrid [] [itemSq, itemD] 2 200 100 none).length →
      j < (calculateGrid [] [itemSq, itemD] 2 200 100 none).length →
      ((calculateGrid [] [itemSq, itemD] 2 200 100 none).getD i
        default).focused = false →
      ((calculateGrid [] [itemSq, itemD] 2 200 100 none).getD j
        default).focused = false →
      ((calculateGrid [] [itemSq, itemD] 2 200 100 none).getD i default).x =
        ((calculateGrid [] [itemSq, itemD] 2 200 100 none).getD j
          default).x →
      (((calculateGrid [] [itemSq, itemD] 2 200 100 none).getD i default).y +
          ((calculateGrid [] [itemSq, itemD] 2 200 100 none).getD i
            default).h ≤
          ((calculateGrid [] [itemSq, itemD] 2 200 100 none).getD j
            default).y ∨
        ((calculateGrid [] [itemSq, itemD] 2 200 100 none).getD j
            default).y +
          ((calculateGrid [] [itemSq, itemD] 2 200 100 none).getD j
            default).h ≤
          ((calculateGrid [] [itemSq, itemD] 2 200 100 none).getD i
            default).y)) ∧
    List.Chain' (fun a b => ∀ k, a.getD k 0 ≤ b.getD k 0)
      (packStates ⟨200, 2, 100, none⟩ (List.replicate 2 0)
        (orderedItems [itemSq, itemD] none)) ∧
    (∀ (ch : List ℚ) (child : Item), (none : Option Int) ≠ some child.id →
      (packStep ⟨200, 2, 100, none⟩ ch child).2 =
        ch.set (idxOfMin ch) (ch.getD (idxOfMin ch) 0 +
          ((packStep ⟨200, 2, 100, none⟩ ch child).1).h) ∧
      ∀ k, ch.getD k 0 ≤
        ((packStep ⟨200, 2, 100, none⟩ ch child).2).getD k 0)) :=
  ⟨⟨by norm_num, by norm_num, by norm_num, by decide, Or.inl rfl⟩,
    C1_packer_invariants [] [itemSq, itemD] 2 200 100 none (by norm_num)
      (by norm_num) (by norm_num) (by decide) (Or.inl rfl)⟩

/-- C5: with no focused item and at least one column, after the packing pass
the spread between the maximum and minimum final column running heights is
at most the maximum packed height of any single item (greedy balance
bound). -/
theorem C5_balance (items : List Item) (columns : Nat) (width ih : ℚ)
    (hcol : 1 ≤ columns) :
    maxD (packList ⟨width, columns, ih, none⟩
        (List.replicate columns 0) items).2 -
      minD (packList ⟨width, columns, ih, none⟩
        (List.replicate columns 0) items).2 ≤
      (((packList ⟨width, columns, ih, none⟩
        (List.replicate columns 0) items).1).map
          (fun e => e.h)).foldr max 0 := by
  have hcz : columns ≠ 0 := by omega
  have hne0 : (List.replicate columns (0 : ℚ)) ≠ [] := replicate_ne_nil hcz
  have hnf : ∀ c ∈ items,
      (Ctx.mk width columns ih none).focusedItemId ≠ some c.id := by
    intro c _
    simp [Ctx.focusedItemId]
  have h := packList_spread hne0 hnf
  rw [maxD_replicate hcz, minD_replicate hcz, sub_self] at h
  rwa [max_eq_right (foldr_max_nonneg _)] at h

/-- C5 witness: the balance bound at concrete inputs. -/
theorem C5_witness :
    (1 : Nat) ≤ 2 ∧
    (maxD (packList ⟨200, 2, 100, none⟩
        (List.replicate 2 0) [itemSq, itemD]).2 -
      minD (packList ⟨200, 2, 100, none⟩
        (List.replicate 2 0) [itemSq, itemD]).2 ≤
      (((packList ⟨200, 2, 100, none⟩
        (List.replicate 2 0) [itemSq, itemD]).1).map
          (fun e => e.h)).foldr max 0) :=
  ⟨by norm_num, C5_balance [itemSq, itemD] 2 200 100 (by norm_num)⟩

/-- The grid for [itemTall, itemZero, itemD], 2 columns, width 300, viewport
height 100, focused id 0. -/
def gridC10 : List GridEntry :=
  calculateGrid [] [itemTall, itemZero, itemD] 2 300 100 (some 0)

/-- C10 counterexample: with focused id 0 the truthiness bug makes two
distinct unfocused entries overlap in both axes simultaneously, refuting
the implicit claim that no two unfocused entries overlap at all. -/
theorem C10_counterexample :
    (gridC10.getD 0 default).focused = false ∧
    (gridC10.getD 2 default).focused = false ∧
    (gridC10.getD 0 default).x <
      (gridC10.getD 2 default).x + (gridC10.getD 2 default).w ∧
    (gridC10.getD 2 default).x <
      (gridC10.getD 0 default).x + (gridC10.getD 0 default).w ∧
    (gridC10.getD 2 default).y <
      (gridC10.getD 0 default).y + (gridC10.getD 0 default).h ∧
    (gridC10.getD 0 default).y <
      (gridC10.getD 2 default).y + (gridC10.getD 2 default).h := by
  have hg : gridC10.map (fun e => (e.x, e.y, e.w, e.h, e.focused)) =
      [(0, 0, 150, 1500, false), (0, 0, 300, 90, true),
        (0, 90, 150, 150, false)] := by
    norm_num [gridC10, calculateGrid, packList, packStep, orderedItems,
      idxOfMin, minD, itemAspect, jsRound, optTruthy, itemTall, itemZero,
      itemD, List.findIdx_cons, List.replicate, min_def, max_def,
      Int.floor_eq_iff, packedHeight, focusedHeight, columnWidth]
  match hgrid : gridC10 with
  | [] => rw [hgrid] at hg; simp at hg
  | [e] => rw [hgrid] at hg; simp at hg
  | [e, e2] => rw [hgrid] at hg; simp at hg
  | e0 :: e1 :: e2 :: rest =>
    have hlen : gridC10.length = 3 := by
      have h := congrArg List.length hg
      simpa using h
    rw [hgrid] at hg hlen
    simp only [List.length_cons] at hlen
    have hrest : rest = [] := List.eq_nil_of_length_eq_zero (by omega)
    subst hrest
    simp only [List.map_cons, List.map_nil, List.cons.injEq] at hg
    rcases hg with ⟨h0, h1, h2, -⟩
    have h0x : e0.x = 0 := congrArg (fun p => p.1) h0
    have h0y : e0.y = 0 := congrArg (fun p => p.2.1) h0
    have h0w : e0.w = 150 := congrArg (fun p => p.2.2.1) h0
    have h0h : e0.h = 1500 := congrArg (fun p => p.2.2.2.1) h0
    have h0f : e0.focused = false := congrArg (fun p => p.2.2.2.2) h0
    have h2x : e2.x = 0 := congrArg (fun p => p.1) h2
    have h2y : e2.y = 90 := congrArg (fun p => p.2.1) h2
    have h2w : e2.w = 150 := congrArg (fun p => p.2.2.1) h2
    have h2h : e2.h = 150 := congrArg (fun p => p.2.2.2.1) h2
    have h2f : e2.focused = false := congrArg (fun p => p.2.2.2.2) h2
    simp only [List.getD_cons_zero, List.getD_cons_succ]
    refine ⟨h0f, h2f, ?_, ?_, ?_, ?_⟩
    · rw [h0x, h2x, h2w]; norm_num
    · rw [h0x, h2x, h0w]; norm_num
    · rw [h2y, h0y, h0h]; norm_num
    · rw [h0y, h2y, h2h]; norm_num

/-- C10 amended: for unique item ids and a focus state that is either absent
or a nonzero id, (1) any two distinct unfocused entries with different x
offsets occupy disjoint horizontal bands [x, x+w) (each entry being exactly
one column band of width containerWidth / columns), and (2) no two distinct
unfocused entries overlap at all: their rectangles are disjoint
horizontally or vertically. -/
theorem C10_bands_disjoint (prev : List GridEntry) (items : List Item)
    (columns : Nat) (width ih : ℚ) (fid : Option Int)
    (hcol : 1 ≤ columns) (hw : 0 < width)
    (hids : items.Pairwise (fun a b => a.id ≠ b.id))
    (hfid : fid = none ∨ ∃ g : Int, fid = some g ∧ g ≠ 0) :
    (∀ i j, i ≠ j →
      i < (calculateGrid prev items columns width ih fid).length →
      j < (calculateGrid prev items columns width ih fid).length →
      ((calculateGrid prev items columns width ih fid).getD i
        default).focused = false →
      ((calculateGrid prev items columns width ih fid).getD j
        default).focused = false →
      ((calculateGrid prev items columns width ih fid).getD i default).x ≠
        ((calculateGrid prev items columns width ih fid).getD j default).x →
      (((calculateGrid prev items columns width ih fid).getD i default).x +
          ((calculateGrid prev items columns width ih fid).getD i
            default).w ≤
          ((calculateGrid prev items columns width ih fid).getD j
            default).x ∨
        ((calculateGrid prev items columns width ih fid).getD j default).x +
          ((calculateGrid prev items columns width ih fid).getD j
            default).w ≤
          ((calculateGrid prev items columns width ih fid).getD i
            default).x)) ∧
    (∀ i j, i ≠ j →
      i < (calculateGrid prev items columns width ih fid).length →
      j < (calculateGrid prev items columns width ih fid).length →
      ((calculateGrid prev items columns width ih fid).getD i
        default).focused = false →
      ((calculateGrid prev items columns width ih fid).getD j
        default).focused = false →
      ¬ ((((calculateGrid prev items columns width ih fid).getD i
            default).x <
          ((calculateGrid prev items columns width ih fid).getD j
            default).x +
          ((calculateGrid prev items columns width ih fid).getD j
            default).w ∧
        ((calculateGrid prev items columns width ih fid).getD j default).x <
          ((calculateGrid prev items columns width ih fid).getD i
            default).x +
          ((calculateGrid prev items columns width ih fid).getD i
            default).w) ∧
        (((calculateGrid prev items columns width ih fid).getD i default).y <
          ((calculateGrid prev items columns width ih fid).getD j
            default).y +
          ((calculateGrid prev items columns width ih fid).getD j
            default).h ∧
        ((calculateGrid prev items columns width ih fid).getD j default).y <
          ((calculateGrid prev items columns width ih fid).getD i
            default).y +
          ((calculateGrid prev items columns width ih fid).getD i
            default).h))) := by
  have hcz : columns ≠ 0 := by omega
  have hwne : width ≠ 0 := ne_of_gt hw
  have hne0 : (List.replicate columns (0 : ℚ)) ≠ [] := replicate_ne_nil hcz
  have hcw : 0 < columnWidth ⟨width, columns, ih, fid⟩ := by
    apply div_pos hw
    exact_mod_cast Nat.pos_of_ne_zero hcz
  have hband : ∀ i, i < (calculateGrid prev items columns width ih
      fid).length →
      ((calculateGrid prev items columns width ih fid).getD i
        default).focused = false →
      ((calculateGrid prev items columns width ih fid).getD i default).w =
        columnWidth ⟨width, columns, ih, fid⟩ ∧
      ∃ c : Nat, c < columns ∧
        ((calculateGrid prev items columns width ih fid).getD i default).x =
          columnWidth ⟨width, columns, ih, fid⟩ * (c : ℚ) := by
    intro i hi hfi
    have hmm : (calculateGrid prev items columns width ih fid).getD i
        default ∈ calculateGrid prev items columns width ih fid := by
      rw [List.getD_eq_getElem?_getD, List.getElem?_eq_getElem hi]
      exact List.getElem_mem _
    rw [calculateGrid, if_neg hwne] at hmm
    rcases packList_unfocused_shape hne0 _ hmm (by
      rw [calculateGrid, if_neg hwne] at hfi
      exact hfi) with ⟨hww, c, hcl, hx⟩
    rw [calculateGrid, if_neg hwne]
    refine ⟨hww, c, by simpa using hcl, hx⟩
  have hpart1 : ∀ i j, i ≠ j →
      i < (calculateGrid prev items columns width ih fid).length →
      j < (calculateGrid prev items columns width ih fid).length →
      ((calculateGrid prev items columns width ih fid).getD i
        default).focused = false →
      ((calculateGrid prev items columns width ih fid).getD j
        default).focused = false →
      ((calculateGrid prev items columns width ih fid).getD i default).x ≠
        ((calculateGrid prev items columns width ih fid).getD j default).x →
      (((calculateGrid prev items columns width ih fid).getD i default).x +
          ((calculateGrid prev items columns width ih fid).getD i
            default).w ≤
          ((calculateGrid prev items columns width ih fid).getD j
            default).x ∨
        ((calculateGrid prev items columns width ih fid).getD j default).x +
          ((calculateGrid prev items columns width ih fid).getD j
            default).w ≤
          ((calculateGrid prev items columns width ih fid).getD i
            default).x) := by
    intro i j hij hi hj hfi hfj hxne
    rcases hband i hi hfi with ⟨hwi, ci, _, hxi⟩
    rcases hband j hj hfj with ⟨hwj, cj, _, hxj⟩
    have hcne : ci ≠ cj := by
      intro hc
      apply hxne
      rw [hxi, hxj, hc]
    rcases Nat.lt_or_ge ci cj with hlt | hge
    · left
      rw [hxi, hxj, hwi]
      have hle : ((ci : ℚ) + 1) ≤ (cj : ℚ) := by
        exact_mod_cast hlt
      calc columnWidth ⟨width, columns, ih, fid⟩ * (ci : ℚ) +
          columnWidth ⟨width, columns, ih, fid⟩ =
          columnWidth ⟨width, columns, ih, fid⟩ * ((ci : ℚ) + 1) := by ring
        _ ≤ columnWidth ⟨width, columns, ih, fid⟩ * (cj : ℚ) := by
          exact mul_le_mul_of_nonneg_left hle (le_of_lt hcw)
    · have hlt2 : cj < ci := lt_of_le_of_ne hge (Ne.symm hcne)
      right
      rw [hxi, hxj, hwj]
      have hle : ((cj : ℚ) + 1) ≤ (ci : ℚ) := by
        exact_mod_cast hlt2
      calc columnWidth ⟨width, columns, ih, fid⟩ * (cj : ℚ) +
          columnWidth ⟨width, columns, ih, fid⟩ =
          columnWidth ⟨width, columns, ih, fid⟩ * ((cj : ℚ) + 1) := by ring
        _ ≤ columnWidth ⟨width, columns, ih, fid⟩ * (ci : ℚ) := by
          exact mul_le_mul_of_nonneg_left hle (le_of_lt hcw)
  refine ⟨hpart1, ?_⟩
  intro i j hij hi hj hfi hfj hover
  rcases hover with ⟨⟨hxo1, hxo2⟩, ⟨hyo1, hyo2⟩⟩
  by_cases hxeq : ((calculateGrid prev items columns width ih fid).getD i
      default).x = ((calculateGrid prev items columns width ih fid).getD j
      default).x
  · rcases Nat.lt_or_ge i j with hlt | hge
    · have := grid_same_x_ordered prev items columns width ih fid hcol hw
        hids hfid i j hlt hj hfi hfj hxeq
      linarith
    · have hlt2 : j < i := lt_of_le_of_ne hge (Ne.symm hij)
      have := grid_same_x_ordered prev items columns width ih fid hcol hw
        hids hfid j i hlt2 hi hfj hfi hxeq.symm
      linarith
  · rcases hpart1 i j hij hi hj hfi hfj hxeq with h | h
    · linarith
    · linarith

/-- C7: an item whose image failed to preload (no metadata recorded for its
URL) is still enriched — natural dimensions fall back to the truthy hint
dimensions, 1000 when absent, and the ratio is the quotient of the
fallbacks — and the enriched list still packs one grid entry per item, the
failed item included: load failure never excludes an item. -/
theorem C7_preload_failure (metaMap : String → Option Meta) (i0 : Item)
    (items : List Item) (prev : List GridEntry) (columns : Nat)
    (width ih : ℚ) (fid : Option Int)
    (hfail : metaMap i0.img = none) (hmem : i0 ∈ items) (hw : width ≠ 0) :
    (enrichItem metaMap i0).naturalW =
      some (if optTruthy i0.width then i0.width.getD 0 else 1000) ∧
    (enrichItem metaMap i0).naturalH =
      some (if i0.height != 0 then i0.height else 1000) ∧
    (enrichItem metaMap i0).aspect =
      some ((if i0.height != 0 then i0.height else 1000) /
        (if optTruthy i0.width then i0.width.getD 0 else 1000)) ∧
    (calculateGrid prev (enrichItems metaMap items) columns width ih
      fid).length = items.length ∧
    ∃ e ∈ calculateGrid prev (enrichItems metaMap items) columns width ih
      fid, e.item = enrichItem metaMap i0 := by
  refine ⟨?_, ?_, ?_, ?_, ?_⟩
  · simp [enrichItem, hfail, optTruthy]
  · simp [enrichItem, hfail, optTruthy]
  · simp [enrichItem, hfail, optTruthy]
  · rw [calculateGrid, if_neg hw, packList_len1, orderedItems_length]
    simp [enrichItems]
  · have hmen : enrichItem metaMap i0 ∈ enrichItems metaMap items :=
      List.mem_map_of_mem _ hmem
    have hord : enrichItem metaMap i0 ∈
        orderedItems (enrichItems metaMap items) fid :=
      ((orderedItems_perm (enrichItems metaMap items) fid).mem_iff).mpr hmen
    have hmaps : (calculateGrid prev (enrichItems metaMap items) columns
        width ih fid).map (fun e => e.item) =
        orderedItems (enrichItems metaMap items) fid := by
      rw [calculateGrid, if_neg hw, packList_items]
    rw [← hmaps] at hord
    rcases List.mem_map.mp hord with ⟨e, he, heq⟩
    exact ⟨e, he, heq⟩

/-- C7 witness: the statement at concrete inputs (every preload fails). -/
theorem C7_witness :
    ((fun _ : String => (none : Option Meta)) itemD.img = none ∧
      itemD ∈ [itemD] ∧ (100 : ℚ) ≠ 0) ∧
    ((enrichItem (fun _ => none) itemD).naturalW =
      some (if optTruthy itemD.width then itemD.width.getD 0 else 1000) ∧
    (enrichItem (fun _ => none) itemD).naturalH =
      some (if itemD.height != 0 then itemD.height else 1000) ∧
    (enrichItem (fun _ => none) itemD).aspect =
      some ((if itemD.height != 0 then itemD.height else 1000) /
        (if optTruthy itemD.width then itemD.width.getD 0 else 1000)) ∧
    (calculateGrid [] (enrichItems (fun _ => none) [itemD]) 1 100 100
      none).length = ([itemD] : List Item).length ∧
    ∃ e ∈ calculateGrid [] (enrichItems (fun _ => none) [itemD]) 1 100 100
      none, e.item = enrichItem (fun _ => none) itemD) :=
  ⟨⟨rfl, by decide, by norm_num⟩,
    C7_preload_failure (fun _ => none) itemD [itemD] [] 1 100 100 none rfl
      (by decide) (by norm_num)⟩

/-- C10 witness: the amended statement at concrete inputs. -/
theorem C10_witness :
    ((1 : Nat) ≤ 2 ∧ (0 : ℚ) < 200 ∧
      ([itemSq, itemD] : List Item).Pairwise (fun a b => a.id ≠ b.id) ∧
      ((none : Option Int) = none ∨
        ∃ g : Int, (none : Option Int) = some g ∧ g ≠ 0)) ∧
    ((∀ i j, i ≠ j →
      i < (calculateGrid [] [itemSq, itemD] 2 200 100 none).length →
      j < (calculateGrid [] [itemSq, itemD] 2 200 100 none).length →
      ((calculateGrid [] [itemSq, itemD] 2 200 100 none).getD i
        default).focused = false →
      ((calculateGrid [] [itemSq, itemD] 2 200 100 none).getD j
        default).focused = false →
      ((calculateGrid [] [itemSq, itemD] 2 200 100 none).getD i default).x ≠
        ((calculateGrid [] [itemSq, itemD] 2 200 100 none).getD j default).x →
      (((calculateGrid [] [itemSq, itemD] 2 200 100 none).getD i default).x +
          ((calculateGrid [] [itemSq, itemD] 2 200 100 none).getD i
            default).w ≤
          ((calculateGrid [] [itemSq, itemD] 2 200 100 none).getD j
            default).x ∨
        ((calculateGrid [] [itemSq, itemD] 2 200 100 none).getD j default).x +
          ((calculateGrid [] [itemSq, itemD] 2 200 100 none).getD j
            default).w ≤
          ((calculateGrid [] [itemSq, itemD] 2 200 100 none).getD i
            default).x)) ∧
    (∀ i j, i ≠ j →
      i < (calculateGrid [] [itemSq, itemD] 2 200 100 none).length →
      j < (calculateGrid [] [itemSq, itemD] 2 200 100 none).length →
      ((calculateGrid [] [itemSq, itemD] 2 200 100 none).getD i
        default).focused = false →
      ((calculateGrid [] [itemSq, itemD] 2 200 100 none).getD j
        default).focused = false →
      ¬ ((((calculateGrid [] [itemSq, itemD] 2 200 100 none).getD i
            default).x <
          ((calculateGrid [] [itemSq, itemD] 2 200 100 none).getD j
            default).x +
          ((calculateGrid [] [itemSq, itemD] 2 200 100 none).getD j
            default).w ∧
        ((calculateGrid [] [itemSq, itemD] 2 200 100 none).getD j default).x <
          ((calculateGrid [] [itemSq, itemD] 2 200 100 none).getD i
            default).x +
          ((calculateGrid [] [itemSq, itemD] 2 200 100 none).getD i
            default).w) ∧
        (((calculateGrid [] [itemSq, itemD] 2 200 100 none).getD i default).y <
          ((calculateGrid [] [itemSq, itemD] 2 200 100 none).getD j
            default).y +
          ((calculateGrid [] [itemSq, itemD] 2 200 100 none).getD j
            default).h ∧
        ((calculateGrid [] [itemSq, itemD] 2 200 100 none).getD j default).y <
          ((calculateGrid [] [itemSq, itemD] 2 200 100 none).getD i
            default).y +
          ((calculateGrid [] [itemSq, itemD] 2 200 100 none).getD i
            default).h)))) :=
  ⟨⟨by norm_num, by norm_num, by decide, Or.inl rfl⟩,
    C10_bands_disjoint [] [itemSq, itemD] 2 200 100 none (by norm_num)
      (by norm_num) (by decide) (Or.inl rfl)⟩

end Masonry
